import Mathlib

/-!
# resguard — verification of the spec against the code

Shallow embedding of `src/resguard.py`: the type-directed decoder
(`parse_dc_typecheck`), the non-checking instantiator (`parse_dc`), the
type-resolution helper (`unpack_union`), the schema inferencer
(`fromdict`/`create_dc`) and the schema printer (`print_dc`).

Conventions of the embedding:
* JSON-decoded payload numbers are embedded as integers (`Value.intV`);
  Python floats arise in this development only with integral values and are
  carried as `Value.floatV`. No claim depends on non-integral floats.
* Raw mappings produced by JSON decoding are string-keyed
  (`Value.dictV : List (String × Value) → Value`).  The `Dict[K, V]` decode
  branch can produce mappings whose keys are arbitrary converted values;
  those are carried by the separate constructor `Value.mapV` and are never
  fed back into a decoder.
* Python exceptions are embedded structurally: one `ErrInfo` constructor per
  `raise` site / message, carrying exactly the data interpolated into the
  message; `renderInfo` rebuilds the message text.
-/

set_option maxHeartbeats 1000000

namespace Resguard

/-- Python runtime values as seen by resguard: the JSON-decoded generic tree
(null / bool / int / float / str / list / string-keyed dict) plus decoder
outputs (converted mappings `mapV`, dataclass instances `instV`). -/
inductive Value : Type where
  | null : Value
  | boolV : Bool → Value
  | intV : Int → Value
  | floatV : Int → Value
  | strV : String → Value
  | listV : List Value → Value
  | dictV : List (String × Value) → Value
  | mapV : List (Value × Value) → Value
  | instV : String → List (String × Value) → Value

mutual
/-- Python type annotations as used by the module: scalar classes, the
`typing` generics `List[...]`, `Dict[...]`, `Tuple[...]`, `Union[...]`,
`Literal[...]`, the bare builtin classes `list`/`dict` (as produced by
`type(v)` on container values), runtime classes of other objects, and
dataclass references.  `Optional[T]` is the annotation `unionT [T, noneT]`,
exactly as in Python where it is `Union[T, NoneType]`. -/
inductive PyType : Type where
  | intT : PyType
  | floatT : PyType
  | boolT : PyType
  | strT : PyType
  | noneT : PyType
  | anyT : PyType
  | listT : List PyType → PyType
  | dictT : List PyType → PyType
  | tupleT : List PyType → PyType
  | unionT : List PyType → PyType
  | literalT : List Value → PyType
  | listCls : PyType
  | dictCls : PyType
  | instanceCls : String → PyType
  | dcT : DC → PyType

/-- A dataclass: its `__name__` and its fields in declaration order, each a
`(name, annotation, default)` triple (`none` = no default). -/
inductive DC : Type where
  | mk : String → List (String × PyType × Option Value) → DC
end

/-- One dataclass field entry: name, annotation, optional default. -/
abbrev DCField := String × PyType × Option Value

def DC.name : DC → String
  | .mk n _ => n

def DC.flds : DC → List DCField
  | .mk _ f => f

/-- `type(v)` — the runtime class of a value.  Raw JSON payloads never
contain dataclass instances, so `instanceCls` never reaches a decoder from
data considered by the claims. -/
def typeof : Value → PyType
  | .null => .noneT
  | .boolV _ => .boolT
  | .intV _ => .intT
  | .floatV _ => .floatT
  | .strV _ => .strT
  | .listV _ => .listCls
  | .dictV _ => .dictCls
  | .mapV _ => .dictCls
  | .instV n _ => .instanceCls n

/-- `__name__` of a type annotation.  On `typing` generic aliases Python's
`__name__` is version-dependent (AttributeError before 3.10, the plain
origin name from 3.10 on); we follow the 3.10 behaviour.  No claim in this
development prints a generic alias. -/
def PyType.pyName : PyType → String
  | .intT => "int"
  | .floatT => "float"
  | .boolT => "bool"
  | .strT => "str"
  | .noneT => "NoneType"
  | .anyT => "Any"
  | .listT _ => "list"
  | .dictT _ => "dict"
  | .tupleT _ => "tuple"
  | .unionT _ => "Union"
  | .literalT _ => "Literal"
  | .listCls => "list"
  | .dictCls => "dict"
  | .instanceCls n => n
  | .dcT (.mk n _) => n

/-- `str(t)` of a type, as interpolated into the list-coercion message
(`f"... a list of type {list_subtype} ..."`). -/
def PyType.pyStrOfType : PyType → String
  | .intT => "<class \x27int\x27>"
  | .floatT => "<class \x27float\x27>"
  | .boolT => "<class \x27bool\x27>"
  | .strT => "<class \x27str\x27>"
  | .noneT => "<class \x27NoneType\x27>"
  | .anyT => "typing.Any"
  | .listT _ => "typing.List"
  | .dictT _ => "typing.Dict"
  | .tupleT _ => "typing.Tuple"
  | .unionT _ => "typing.Union"
  | .literalT _ => "typing.Literal"
  | .listCls => "<class \x27list\x27>"
  | .dictCls => "<class \x27dict\x27>"
  | .instanceCls n => "<class \x27" ++ n ++ "\x27>"
  | .dcT (.mk n _) => "<class \x27" ++ n ++ "\x27>"

mutual
/-- `repr(v)`.  String escaping inside the repr of strings is simplified to
plain quoting; no claim depends on escaped characters. -/
def pyRepr : Value → String
  | .null => "None"
  | .boolV true => "True"
  | .boolV false => "False"
  | .intV n => toString n
  | .floatV n => toString n ++ ".0"
  | .strV s => "\x27" ++ s ++ "\x27"
  | .listV xs => "[" ++ pyReprL xs ++ "]"
  | .dictV kvs => "\x7b" ++ pyReprSL kvs ++ "\x7d"
  | .mapV kvs => "\x7b" ++ pyReprPL kvs ++ "\x7d"
  | .instV n flds => n ++ "(" ++ pyReprFL flds ++ ")"

/-- Comma-joined reprs of list elements. -/
def pyReprL : List Value → String
  | [] => ""
  | [x] => pyRepr x
  | x :: xs => pyRepr x ++ ", " ++ pyReprL xs

/-- Comma-joined `'key': repr` pairs of a string-keyed dict. -/
def pyReprSL : List (String × Value) → String
  | [] => ""
  | [(k, v)] => "\x27" ++ k ++ "\x27: " ++ pyRepr v
  | (k, v) :: rest => "\x27" ++ k ++ "\x27: " ++ pyRepr v ++ ", " ++ pyReprSL rest

/-- Comma-joined `repr: repr` pairs of a converted mapping. -/
def pyReprPL : List (Value × Value) → String
  | [] => ""
  | [(k, v)] => pyRepr k ++ ": " ++ pyRepr v
  | (k, v) :: rest => pyRepr k ++ ": " ++ pyRepr v ++ ", " ++ pyReprPL rest

/-- Comma-joined `field=repr` components of a dataclass repr. -/
def pyReprFL : List (String × Value) → String
  | [] => ""
  | [(f, v)] => f ++ "=" ++ pyRepr v
  | (f, v) :: rest => f ++ "=" ++ pyRepr v ++ ", " ++ pyReprFL rest
end

/-- `str(v)`: identical to `repr(v)` except on strings. -/
def pyStrFun : Value → String
  | .strV s => s
  | v => pyRepr v

/-- `v is None`. -/
def isNullV : Value → Bool
  | .null => true
  | _ => false

/-- Python truthiness, `bool(v)`. -/
def truthy : Value → Bool
  | .null => false
  | .boolV b => b
  | .intV n => n != 0
  | .floatV n => n != 0
  | .strV s => s != ""
  | .listV xs => !xs.isEmpty
  | .dictV kvs => !kvs.isEmpty
  | .mapV kvs => !kvs.isEmpty
  | .instV _ _ => true

/-- Digit-string value, `none` if empty or a non-digit occurs. -/
def digitsVal (cs : List Char) : Option Nat :=
  if cs ≠ [] ∧ cs.all Char.isDigit then
    some (cs.foldl (fun acc c => acc * 10 + (c.toNat - 48)) 0)
  else none

/-- Python `str.strip()` whitespace class (the common ASCII subset). -/
def isPySpace (c : Char) : Bool :=
  c == ' ' || c == '\t' || c == '\n' || c == '\r' || c == '\x0b' || c == '\x0c'

/-- Strip leading and trailing whitespace from a character list. -/
def pyStrip (cs : List Char) : List Char :=
  ((cs.dropWhile isPySpace).reverse.dropWhile isPySpace).reverse

/-- `int(s)` for a string argument: optional surrounding whitespace, an
optional sign, then decimal digits.  (Underscore digit grouping is not
modelled; no claim uses it.) -/
def parsePyInt (s : String) : Option Int :=
  match pyStrip s.data with
  | [] => none
  | c :: rest =>
    if c = '+' then (digitsVal rest).map Int.ofNat
    else if c = '-' then (digitsVal rest).map (fun n => -(n : Int))
    else (digitsVal (c :: rest)).map Int.ofNat

mutual
/-- Structural equality test on values (Python `==` restricted to the equal
runtime kinds actually compared by the module; cross-kind numeric equality
is handled separately by `pyEq`). -/
def Value.beq : Value → Value → Bool
  | .null, .null => true
  | .boolV a, .boolV b => a == b
  | .intV a, .intV b => a == b
  | .floatV a, .floatV b => a == b
  | .strV a, .strV b => a == b
  | .listV a, .listV b => Value.beqL a b
  | .dictV a, .dictV b => Value.beqSL a b
  | .mapV a, .mapV b => Value.beqPL a b
  | .instV n a, .instV m b => n == m && Value.beqSL a b
  | _, _ => false
termination_by structural a => a

def Value.beqL : List Value → List Value → Bool
  | [], [] => true
  | a :: as, b :: bs => Value.beq a b && Value.beqL as bs
  | _, _ => false
termination_by structural a => a

def Value.beqSL : List (String × Value) → List (String × Value) → Bool
  | [], [] => true
  | (k, a) :: as, (l, b) :: bs => k == l && Value.beq a b && Value.beqSL as bs
  | _, _ => false
termination_by structural a => a

def Value.beqPL : List (Value × Value) → List (Value × Value) → Bool
  | [], [] => true
  | (k, a) :: as, (l, b) :: bs => Value.beq k l && Value.beq a b && Value.beqPL as bs
  | _, _ => false
termination_by structural a => a
end

/-- Python `==` between a raw value and a `Literal[...]` member: numeric
kinds (bool/int/float) compare by numeric value, everything else
structurally. -/
def pyEq (a b : Value) : Bool :=
  match a, b with
  | .boolV x, .intV m => (if x then (1 : Int) else 0) == m
  | .intV n, .boolV y => n == (if y then (1 : Int) else 0)
  | .boolV x, .floatV m => (if x then (1 : Int) else 0) == m
  | .floatV n, .boolV y => n == (if y then (1 : Int) else 0)
  | .intV n, .floatV m => n == m
  | .floatV n, .intV m => n == m
  | _, _ => Value.beq a b

/-- Equality test on optional default values. -/
def optValueBeq : Option Value → Option Value → Bool
  | none, none => true
  | some a, some b => Value.beq a b
  | _, _ => false

mutual
/-- Equality test on type annotations (Python `==`/`in` on type objects, as
used by `Union` deduplication). -/
def PyType.beq : PyType → PyType → Bool
  | .intT, .intT => true
  | .floatT, .floatT => true
  | .boolT, .boolT => true
  | .strT, .strT => true
  | .noneT, .noneT => true
  | .anyT, .anyT => true
  | .listT a, .listT b => PyType.beqL a b
  | .dictT a, .dictT b => PyType.beqL a b
  | .tupleT a, .tupleT b => PyType.beqL a b
  | .unionT a, .unionT b => PyType.beqL a b
  | .literalT a, .literalT b => Value.beqL a b
  | .listCls, .listCls => true
  | .dictCls, .dictCls => true
  | .instanceCls n, .instanceCls m => n == m
  | .dcT a, .dcT b => DC.beq a b
  | _, _ => false
termination_by structural a => a

def PyType.beqL : List PyType → List PyType → Bool
  | [], [] => true
  | a :: as, b :: bs => PyType.beq a b && PyType.beqL as bs
  | _, _ => false
termination_by structural a => a

def DC.beq : DC → DC → Bool
  | .mk n f, .mk m g => n == m && DC.beqFlds f g
termination_by structural a => a

def DC.beqFlds : List DCField → List DCField → Bool
  | [], [] => true
  | (n, t, d) :: fs, (m, u, e) :: gs =>
      n == m && PyType.beq t u && optValueBeq d e && DC.beqFlds fs gs
  | _, _ => false
termination_by structural a => a
end

/-! ## Error taxonomy

One `ErrInfo` constructor per message-producing `raise` site (or primitive
conversion failure), carrying exactly the data Python interpolates into the
message; `PyErr` tags the exception class. -/

inductive ErrInfo : Type where
  /-- `int(s)` parse failure: `invalid literal for int() with base 10: <repr s>`. -/
  | intParse : String → ErrInfo
  /-- `float(s)` parse failure. -/
  | floatParse : String → ErrInfo
  /-- `int(v)` on a non-string non-number: `int() argument must be ... not <ty>`. -/
  | intBadType : String → ErrInfo
  /-- `float(v)` on a non-string non-number. -/
  | floatBadType : String → ErrInfo
  /-- Calling a `typing.Union`: `Cannot instantiate typing.Union`. -/
  | unionCall : ErrInfo
  /-- `Union[()]`: `Cannot take a Union of no types.` -/
  | unionOfNoTypes : ErrInfo
  /-- `Union[(v, ...)]` with non-type arguments (`Literal` args). -/
  | unionOfValues : ErrInfo
  /-- `issubclass()` with a non-class first argument. -/
  | issubclassArg : ErrInfo
  /-- `", ".join(v)` hitting a non-string element at index `i` of type `ty`. -/
  | joinItem : Nat → String → ErrInfo
  /-- `NoneType(v)`: `NoneType` takes no arguments / is not instantiable. -/
  | noneCall : ErrInfo
  /-- Calling a non-callable type object. -/
  | notCallable : String → ErrInfo
  /-- `list(v)` on a non-iterable of type `ty`. -/
  | notIterable : String → ErrInfo
  /-- Positional dataclass call with the wrong number of arguments. -/
  | badArity : String → ErrInfo
  /-- Embedding marker for corners no claim reaches (see doc comments at use
  sites); carries a description of the unmodelled Python behaviour. -/
  | unmodeledCall : String → ErrInfo
  /-- `parse_dc_typecheck` unknown field (strict):
  `Unknow field {k} for {cls}. Expected one of ({names})`. -/
  | unknownFieldTC : String → String → List String → ErrInfo
  /-- `parse_dc` unknown field (strict): `Unknow field {k} for {cls}({names})`. -/
  | unknownFieldDC : String → String → List String → ErrInfo
  /-- Literal mismatch: `while creating Literal for dataclass {cls}, it seems
  that {v} is not in literal values {lits}`. -/
  | literalMismatch : String → Value → List Value → ErrInfo
  /-- Scalar wrap: `in dataclass {cls}, {repr v} is not {ty}: {inner}`. -/
  | scalarCoercion : String → Value → String → ErrInfo → ErrInfo
  /-- List wrap: `in dataclass {cls} while trying to construct a list of type
  {subty} with values [{joined}]: {inner}`. -/
  | listCoercion : String → String → String → ErrInfo → ErrInfo
  /-- Callable wrap: ` in dataclass {cls} while trying to construct value from
  {ty}({repr v}): {inner}` (note the leading space, as in the source). -/
  | callableCoercion : String → String → Value → ErrInfo → ErrInfo
  /-- `NotImplementedError`: `Can't find a way to determine concrete type for {v}`. -/
  | noConcrete : Value → ErrInfo
  /-- Construction wrap: `while calling {cls}(**data) with this data {data}: {inner}`. -/
  | construction : String → List (String × Value) → ErrInfo → ErrInfo
  /-- Dataclass `__init__` missing required arguments. -/
  | missingArgs : String → List String → ErrInfo
  /-- Dataclass `__init__` got an unexpected keyword argument. -/
  | unexpectedKw : String → String → ErrInfo
  /-- `make_dataclass`: `Field names must be valid identifiers: {name!r}`. -/
  | fieldIdent : String → ErrInfo
  /-- `make_dataclass`: `Field names must not be keywords: {name!r}`. -/
  | fieldKeyword : String → ErrInfo
  /-- `make_dataclass`: `Field name duplicated: {name!r}`. -/
  | fieldDup : String → ErrInfo

/-- A raised Python exception: class plus structured message payload. -/
inductive PyErr : Type where
  | valueError : ErrInfo → PyErr
  | typeError : ErrInfo → PyErr
  | keyError : String → PyErr
  | attributeError : String → PyErr
  | notImplementedError : ErrInfo → PyErr
  | nameError : String → PyErr

/-! ## Type resolution (`unpack_union`) -/

/-- `t.__args__` for the generic aliases that have one (with type
parameters).  `Literal` also has `__args__` in Python, but they are values,
not types; `unpack_union` special-cases it below. -/
def pyArgs : PyType → Option (List PyType)
  | .listT a => some a
  | .dictT a => some a
  | .tupleT a => some a
  | .unionT a => some a
  | _ => none

/-- Is this annotation `type(None)` or `typing.Any`?  (The filter
`t not in (type(None), Any)` inside `unpack_union`.) -/
def isNoneOrAny : PyType → Bool
  | .noneT => true
  | .anyT => true
  | _ => false

/-- Order-preserving first-occurrence deduplication, as performed by
`Union[...]` on its argument tuple. -/
def dedupFirst (l : List PyType) : List PyType :=
  l.foldl (fun acc t => if acc.any (fun u => PyType.beq u t) then acc else acc ++ [t]) []

/-- `Union[tuple(ts)]`: flatten nested unions, deduplicate keeping first
occurrences, collapse a singleton to its only member, and fail on the empty
tuple (`TypeError: Cannot take a Union of no types.`). -/
def mkUnion (ts : List PyType) : Except PyErr PyType :=
  let flat := ts.foldr (fun t acc => (match t with | .unionT bs => bs | x => [x]) ++ acc) []
  match dedupFirst flat with
  | [] => .error (.typeError .unionOfNoTypes)
  | [t] => .ok t
  | us => .ok (.unionT us)

/-- `unpack_union(union)`: rebuild `Union[...]` from `__args__` with
`NoneType` and `Any` filtered out; on `AttributeError` (no `__args__`)
return the input unchanged.  NOTE: this returns a *union* when several
arguments survive the filter — it does not pick the first member. -/
def unpack_union (t : PyType) : Except PyErr PyType :=
  match t with
  | .literalT _ => .error (.typeError .unionOfValues)
  | _ =>
    match pyArgs t with
    | none => .ok t
    | some args => mkUnion (args.filter (fun a => !isNoneOrAny a))

/-! ## Constructor-call semantics -/

/-- `int(v)`. -/
def pyIntC : Value → Except PyErr Value
  | .intV n => .ok (.intV n)
  | .boolV b => .ok (.intV (if b then 1 else 0))
  | .floatV n => .ok (.intV n)
  | .strV s =>
    match parsePyInt s with
    | some n => .ok (.intV n)
    | none => .error (.valueError (.intParse s))
  | v => .error (.typeError (.intBadType (typeof v).pyName))

/-- `float(v)`.  String parsing is restricted to integer literals — decimal
syntax is outside the integer embedding and no claim depends on it. -/
def pyFloatC : Value → Except PyErr Value
  | .intV n => .ok (.floatV n)
  | .boolV b => .ok (.floatV (if b then 1 else 0))
  | .floatV n => .ok (.floatV n)
  | .strV s =>
    match parsePyInt s with
    | some n => .ok (.floatV n)
    | none => .error (.valueError (.floatParse s))
  | v => .error (.typeError (.floatBadType (typeof v).pyName))

/-- `iter(v)` as a list of elements: lists iterate their elements, strings
their characters, mappings their keys; scalars and `None` are not iterable. -/
def pyIter : Value → Option (List Value)
  | .listV xs => some xs
  | .strV s => some (s.toList.map (fun c => .strV (String.singleton c)))
  | .dictV kvs => some (kvs.map (fun p => .strV p.1))
  | .mapV kvs => some (kvs.map (fun p => p.1))
  | _ => none

/-- A positional one-argument dataclass call `DC(v)` (this is how list
elements with a dataclass element type are built): the first declared field
receives `v`; every other field must have a default. -/
def dcCallPositional (d : DC) (v : Value) : Except PyErr Value :=
  match d with
  | .mk n [] => .error (.typeError (.badArity n))
  | .mk n ((f0, _, _) :: rest) =>
    if rest.all (fun f => f.2.2.isSome) then
      .ok (.instV n ((f0, v) :: rest.map (fun f => (f.1, f.2.2.getD .null))))
    else
      .error (.typeError (.badArity n))

/-- Calling a type annotation as a constructor, `t(v)`. -/
def pyCallType (t : PyType) (v : Value) : Except PyErr Value :=
  match t with
  | .intT => pyIntC v
  | .floatT => pyFloatC v
  | .boolT => .ok (.boolV (truthy v))
  | .strT => .ok (.strV (pyStrFun v))
  | .unionT _ => .error (.typeError .unionCall)
  | .noneT => .error (.typeError .noneCall)
  | .anyT => .error (.typeError (.notCallable "Any"))
  | .listT _ => .error (.typeError (.notCallable "List"))
  | .dictT _ => .error (.typeError (.notCallable "Dict"))
  | .tupleT _ => .error (.typeError (.notCallable "Tuple"))
  | .literalT _ => .error (.typeError (.notCallable "Literal"))
  | .listCls =>
    match pyIter v with
    | some xs => .ok (.listV xs)
    | none => .error (.typeError (.notIterable (typeof v).pyName))
  | .dictCls => .error (.typeError (.unmodeledCall "dict(v)"))
  | .instanceCls n => .error (.typeError (.unmodeledCall ("call of class " ++ n)))
  | .dcT d => dcCallPositional d v

/-- `", ".join(xs)`: every element must be a string, otherwise
`TypeError: sequence item {i}: expected str instance, {ty} found`. -/
def pyJoin (sep : String) (xs : List Value) : Except PyErr String :=
  go 0 xs
where
  go : Nat → List Value → Except PyErr String
    | _, [] => .ok ""
    | _, [.strV s] => .ok s
    | i, .strV s :: rest =>
      match go (i + 1) rest with
      | .ok r => .ok (s ++ sep ++ r)
      | .error e => .error e
    | i, v :: _ => .error (.typeError (.joinItem i (typeof v).pyName))

/-! ## Dictionary (keyword) plumbing -/

/-- Association-list read, Python `d[k]`/`d.get(k)` on a string-keyed dict. -/
def assocGet (l : List (String × Value)) (k : String) : Option Value :=
  (l.find? (fun p => p.1 == k)).map (fun p => p.2)

/-- Association-list write, Python `d[k] = v`: update in place when the key
exists, append otherwise. -/
def assocSet (l : List (String × Value)) (k : String) (v : Value) : List (String × Value) :=
  if l.any (fun p => p.1 == k) then l.map (fun p => if p.1 == k then (k, v) else p)
  else l ++ [(k, v)]

/-- Association-list delete, Python `del d[k]`. -/
def assocDel (l : List (String × Value)) (k : String) : List (String × Value) :=
  l.filter (fun p => !(p.1 == k))

/-- `{f.name: f.type for f in fields(cls)}[k]` as an optional lookup. -/
def lookupFld (flds : List DCField) (k : String) : Option PyType :=
  (flds.find? (fun f => f.1 == k)).map (fun f => f.2.1)

/-- The keyword-argument dataclass call `Cls(**kwargs)`: reject unexpected
keywords, then require every field without a default to be supplied; the
instance carries every declared field, in declaration order, with supplied
values taking precedence over defaults. -/
def dcCallKw (name : String) (flds : List DCField) (kwargs : List (String × Value)) :
    Except PyErr Value :=
  match kwargs.find? (fun kv => (lookupFld flds kv.1).isNone) with
  | some kv => .error (.typeError (.unexpectedKw name kv.1))
  | none =>
    match (flds.filter (fun f => f.2.2.isNone && (assocGet kwargs f.1).isNone)).map
        (fun f => f.1) with
    | [] =>
      .ok (.instV name (flds.map (fun f =>
        (f.1, match assocGet kwargs f.1 with
              | some v => v
              | none => f.2.2.getD .null))))
    | missing => .error (.typeError (.missingArgs name missing))

/-! ## `parse_dc` — the non-typechecking recursive instantiator -/

/-- `k.startswith("__")` (data-level, so that it evaluates by `rfl`). -/
def startsWithUU (k : String) : Bool :=
  match k.data with
  | '_' :: '_' :: _ => true
  | _ => false

mutual
/-- The recursive call `parse_dc(flds[k], v)` made for a dataclass-typed
field: Python's default `strict=True` applies.  Non-mapping `v` fails on
`v.copy()` / `v.items()` exactly as in Python (lists have `.copy` but no
`.items`; scalars and `None` have no `.copy`; the decoder-internal `mapV`
never re-enters a decoder). -/
def parse_dc_nested : DC → Value → Except PyErr Value
  | .mk cn cf, .dictV kvs => parse_dc_go cn cf true kvs kvs
  | _, .listV _ => .error (.attributeError "items")
  | _, _ => .error (.attributeError "copy")

/-- The body of `parse_dc`: iterate over `data.items()` (`pending`) while
mutating the working copy `cpy`; unknown keys beginning with `__` are
rewritten to `"_" ++ name ++ k` and then looked up again directly in the
field-type table (`flds[k]`), which raises `KeyError` when the rewritten key
is not declared — the strict flag is never consulted on that path.  Other
unknown keys raise `TypeError` under strict and are deleted under lenient.
Fields whose declared type is a dataclass are recursively parsed; all other
values pass through unchanged.  After the loop, `dc(**cpy)`. -/
def parse_dc_go (name : String) (flds : List DCField) (strict : Bool) :
    List (String × Value) → List (String × Value) → Except PyErr Value
  | [], cpy => dcCallKw name flds cpy
  | (k0, v) :: rest, cpy =>
    match lookupFld flds k0 with
    | some ty =>
      match ty with
      | .dcT child =>
        match parse_dc_nested child v with
        | .ok i => parse_dc_go name flds strict rest (assocSet cpy k0 i)
        | .error e => .error e
      | _ => parse_dc_go name flds strict rest cpy
    | none =>
      if startsWithUU k0 then
        let nk := "_" ++ name ++ k0
        let cpy2 := assocDel (assocSet cpy nk v) k0
        match lookupFld flds nk with
        | some ty =>
          match ty with
          | .dcT child =>
            match parse_dc_nested child v with
            | .ok i => parse_dc_go name flds strict rest (assocSet cpy2 nk i)
            | .error e => .error e
          | _ => parse_dc_go name flds strict rest cpy2
        | none => .error (.keyError nk)
      else if strict then
        .error (.typeError (.unknownFieldDC k0 name (flds.map (fun f => f.1))))
      else
        parse_dc_go name flds strict rest (assocDel cpy k0)
end

/-- `parse_dc(dc, data, strict)`: build the tree of dataclasses from `data`
without type checking.  Non-mapping data fails on `data.copy()` /
`data.items()` exactly as in Python. -/
def parse_dc (d : DC) (data : Value) (strict : Bool) : Except PyErr Value :=
  match d, data with
  | .mk name flds, .dictV kvs => parse_dc_go name flds strict kvs kvs
  | _, .listV _ => .error (.attributeError "items")
  | _, _ => .error (.attributeError "copy")

/-! ## `parse_dc_typecheck` — the type-directed decoder -/

/-- The concrete decoding strategy for one declared field type, i.e. the
outcome of the `hasattr(typev, "__origin__")` classification block. -/
inductive Strategy : Type where
  | literalS : List Value → Strategy
  | listS : PyType → Strategy
  | dictS : PyType → PyType → Strategy
  | concreteS : PyType → Strategy

/-- Classify a declared field type: `List`/`Dict`/`Union`/`Literal` generics
by `__origin__` (with `list_subtype = unpack_union(typev)` computed
eagerly — so `List[Any]` fails right here), any other `__origin__`
(e.g. `Tuple`) raises `NotImplementedError` interpolating the *value*, and
annotations without `__origin__` are their own concrete type. -/
def classify (typev : PyType) (v : Value) : Except PyErr Strategy :=
  match typev with
  | .listT _ =>
    match unpack_union typev with
    | .ok sub => .ok (.listS sub)
    | .error e => .error e
  | .dictT args =>
    match args with
    | kt :: vt :: _ => .ok (.dictS kt vt)
    | _ => .error (.typeError (.unmodeledCall "Dict with fewer than two parameters"))
  | .unionT _ =>
    match unpack_union typev with
    | .ok c => .ok (.concreteS c)
    | .error e => .error e
  | .literalT lits => .ok (.literalS lits)
  | .tupleT _ => .error (.notImplementedError (.noConcrete v))
  | t => .ok (.concreteS t)

/-- Would `issubclass(t, ...)` accept `t` as its first argument (is `t` a
class object rather than a `typing` alias)? -/
def isClassObj : PyType → Bool
  | .intT => true
  | .floatT => true
  | .boolT => true
  | .strT => true
  | .noneT => true
  | .listCls => true
  | .dictCls => true
  | .instanceCls _ => true
  | .dcT _ => true
  | _ => false

/-- `issubclass(t, (float, int, bool, str))` for class objects. -/
def isScalarSub : PyType → Bool
  | .intT => true
  | .floatT => true
  | .boolT => true
  | .strT => true
  | _ => false

/-- `[list_subtype(x) for x in v]`: convert elements in order, stopping at
the first failure; no partial list survives a failure. -/
def convList (subty : PyType) : List Value → Except PyErr (List Value)
  | [] => .ok []
  | x :: xs =>
    match pyCallType subty x with
    | .ok r =>
      match convList subty xs with
      | .ok rs => .ok (r :: rs)
      | .error e => .error e
    | .error e => .error e

/-- `{dict_subtype_key(k): dict_subtype_val(v) for k, v in v.items()}`:
convert pairs in iteration order (key before value — the CPython ≥ 3.8
evaluation order; nothing below depends on the within-pair order), stopping
at the first failure, which propagates raw and unwrapped. -/
def convPairs (kt vt : PyType) : List (Value × Value) → Except PyErr (List (Value × Value))
  | [] => .ok []
  | (k, v) :: rest =>
    match pyCallType kt k with
    | .ok rk =>
      match pyCallType vt v with
      | .ok rv =>
        match convPairs kt vt rest with
        | .ok rs => .ok ((rk, rv) :: rs)
        | .error e => .error e
      | .error e => .error e
    | .error e => .error e

/-- Per-field dispatch of `parse_dc_typecheck` on the classified strategy:
literal membership; dataclasses via `parse_dc` (strict, no wrap); scalar
constructors with `ValueError` rewrapped; the `concrete_typev is list` /
`is dict` branches (reachable only for the bare builtin classes, where the
subtype locals are unbound — the `nameError` marks that corner); remaining
class objects called with `TypeError` rewrapped.  A non-class concrete type
(a surviving `Union`, a generic alias, `Any`) makes `issubclass` itself
raise. -/
def dispatch (clsName : String) (strat : Strategy) (v : Value) : Except PyErr Value :=
  match strat with
  | .literalS lits =>
    if lits.any (fun l => pyEq v l) then .ok v
    else .error (.typeError (.literalMismatch clsName v lits))
  | .concreteS t =>
    match t with
    | .dcT d => parse_dc d v true
    | _ =>
      if !isClassObj t then .error (.typeError .issubclassArg)
      else if isScalarSub t then
        match pyCallType t v with
        | .ok r => .ok r
        | .error (.valueError i) =>
          .error (.typeError (.scalarCoercion clsName v t.pyName i))
        | .error e => .error e
      else if PyType.beq t .listCls then .error (.nameError "list_subtype")
      else if PyType.beq t .dictCls then .error (.nameError "dict_subtype_key")
      else
        match pyCallType t v with
        | .ok r => .ok r
        | .error (.typeError i) =>
          .error (.typeError (.callableCoercion clsName t.pyName v i))
        | .error e => .error e
  | .listS subty =>
    match pyIter v with
    | none => .error (.typeError (.notIterable (typeof v).pyName))
    | some elems =>
      match convList subty elems with
      | .ok rs => .ok (.listV rs)
      | .error (.valueError i) =>
        -- `except ValueError` rewraps — but building the message joins the
        -- *raw* elements, which itself raises when one is not a string
        match pyJoin ", " elems with
        | .ok j => .error (.typeError (.listCoercion clsName subty.pyStrOfType j i))
        | .error e => .error e
      | .error e => .error e
  | .dictS kt vt =>
    match v with
    | .dictV kvs =>
      match convPairs kt vt (kvs.map (fun p => (Value.strV p.1, p.2))) with
      | .ok m => .ok (.mapV m)
      | .error e => .error e
    | .mapV kvs =>
      match convPairs kt vt kvs with
      | .ok m => .ok (.mapV m)
      | .error e => .error e
    | _ => .error (.attributeError "items")

/-- `re.sub(r"^__", f"_{cls.__name__}__", k)`: a leading `__` is rewritten to
the class-qualified private name. -/
def normalizeKey (clsName : String) (k : String) : String :=
  if startsWithUU k then "_" ++ clsName ++ k else k

/-- `fields_[k]` as an optional lookup on the name/type table. -/
def tcLookup (fields_ : List (String × PyType)) (k : String) : Option PyType :=
  (fields_.find? (fun f => f.1 == k)).map (fun f => f.2)

/-- The per-key loop of `parse_dc_typecheck`, accumulating `res`:
normalize the key, reject/skip unknown keys (strict/lenient), skip `None`
values, classify the declared type, dispatch, store the result. -/
def tcLoop (clsName : String) (fields_ : List (String × PyType)) (ignore_unknows : Bool) :
    List (String × Value) → List (String × Value) → Except PyErr (List (String × Value))
  | [], res => .ok res
  | (rawk, v) :: rest, res =>
    let k := normalizeKey clsName rawk
    match tcLookup fields_ k with
    | none =>
      if ignore_unknows then tcLoop clsName fields_ ignore_unknows rest res
      else .error (.typeError (.unknownFieldTC k clsName (fields_.map (fun f => f.1))))
    | some typev =>
      if isNullV v then tcLoop clsName fields_ ignore_unknows rest res
      else
        match classify typev v with
        | .error e => .error e
        | .ok strat =>
          match dispatch clsName strat v with
          | .error e => .error e
          | .ok r => tcLoop clsName fields_ ignore_unknows rest (assocSet res k r)

/-- `fields_ = {f.name: f.type for f in fields(cls)}`. -/
def tcFields (cls : DC) : List (String × PyType) :=
  cls.flds.map (fun f => (f.1, f.2.1))

/-- `parse_dc_typecheck(cls, data, ignore_unknows)`: run the per-key loop on
an empty accumulator, then `cls(**res)` with `TypeError` rewrapped as the
construction error (which interpolates the original `data`). -/
def parse_dc_typecheck (cls : DC) (data : List (String × Value)) (ignore_unknows : Bool) :
    Except PyErr Value :=
  match tcLoop cls.name (tcFields cls) ignore_unknows data [] with
  | .error e => .error e
  | .ok res =>
    match dcCallKw cls.name cls.flds res with
    | .ok r => .ok r
    | .error (.typeError i) => .error (.typeError (.construction cls.name data i))
    | .error e => .error e

/-! ## Schema inference (`fromdict` / `create_dc`) -/

/-- The sequence rule of `fromdict`: empty → `List[Any]`; all elements of
one runtime class (`len(set(map(type, v))) == 1`) → `List[type(v[0])]`;
otherwise the fixed-arity `Tuple[tuple(map(type, v))]`. -/
def inferListTy : List Value → PyType
  | [] => .listT [.anyT]
  | x :: xs =>
    if (dedupFirst ((x :: xs).map typeof)).length == 1 then .listT [typeof x]
    else .tupleT ((x :: xs).map typeof)

/-- Start character of Python `str.isidentifier`, restricted to ASCII: a
latin letter or an underscore.  (Python also accepts non-ASCII Unicode
XID_Start characters; the embedding models the ASCII fragment only, and no
theorem below speaks about non-ASCII keys.) -/
def isIdentStart (c : Char) : Bool :=
  (97 ≤ c.toNat && c.toNat ≤ 122) || (65 ≤ c.toNat && c.toNat ≤ 90) || c == '_'

/-- Continuation character of an identifier: a start character or an ASCII
digit. -/
def isIdentCont (c : Char) : Bool :=
  isIdentStart c || (48 ≤ c.toNat && c.toNat ≤ 57)

/-- `s.isidentifier()` (ASCII fragment): nonempty, one start character
followed by continuation characters. -/
def isidentifier (s : String) : Bool :=
  match s.data with
  | [] => false
  | c :: cs => isIdentStart c && cs.all isIdentCont

/-- `keyword.kwlist`: the names `make_dataclass` rejects as field names. -/
def kwlist : List String :=
  ["False", "None", "True", "and", "as", "assert", "async", "await",
   "break", "class", "continue", "def", "del", "elif", "else", "except",
   "finally", "for", "from", "global", "if", "import", "in", "is",
   "lambda", "nonlocal", "not", "or", "pass", "raise", "return", "try",
   "while", "with", "yield"]

/-- `keyword.iskeyword(s)`. -/
def iskeyword (s : String) : Bool := kwlist.contains s

/-- The field-name validation loop of `make_dataclass`: each name must be a
valid identifier, must not be a keyword, and must not repeat an already
`seen` name; the first offender raises `TypeError` with the corresponding
message. -/
def checkFieldNames : List String → List DCField → Option ErrInfo
  | _, [] => none
  | seen, f :: rest =>
    if !(isidentifier f.1) then some (.fieldIdent f.1)
    else if iskeyword f.1 then some (.fieldKeyword f.1)
    else if seen.contains f.1 then some (.fieldDup f.1)
    else checkFieldNames (f.1 :: seen) rest

/-- `create_dc(dcname, fields)` = `make_dataclass`, which validates every
field name before building the class and raises `TypeError` at the first
invalid one.  (The module-global `_created_dataclasses` registry write has
no observable effect on any claim and is not modelled; the class *name* is
not validated by `make_dataclass`.) -/
def create_dc (dcname : String) (fields : List DCField) : Except PyErr DC :=
  match checkFieldNames [] fields with
  | some e => .error (.typeError e)
  | none => .ok (.mk dcname fields)

mutual
/-- The contribution of one `(key, value)` pair of the sample to the
field-collection loop of `fromdict`: nested mappings recurse (the key
becomes the nested dataclass name, and the nested `make_dataclass` call may
raise while the outer field list is still being built), sequences go
through the rule above, supported scalars contribute `type(v)`, and any
other runtime kind is silently omitted.  (The catch-all also absorbs the
decoder-internal `mapV`, which never occurs in raw payloads.) -/
def fromdictField1 : String → Value → Except PyErr (List DCField)
  | k, .dictV kvs =>
    match fromdictFields kvs with
    | .error e => .error e
    | .ok fs =>
      match create_dc k fs with
      | .error e => .error e
      | .ok sub => .ok [(k, PyType.dcT sub, none)]
  | k, .listV xs => .ok [(k, inferListTy xs, none)]
  | k, .intV n => .ok [(k, typeof (.intV n), none)]
  | k, .floatV n => .ok [(k, typeof (.floatV n), none)]
  | k, .boolV b => .ok [(k, typeof (.boolV b), none)]
  | k, .strV s => .ok [(k, typeof (.strV s), none)]
  | _, _ => .ok []

/-- The `for k, v in data.items()` loop of `fromdict`, accumulating
`dc_fields`; the first nested inference failure propagates. -/
def fromdictFields : List (String × Value) → Except PyErr (List DCField)
  | [] => .ok []
  | (k, v) :: rest =>
    match fromdictField1 k v with
    | .error e => .error e
    | .ok fs =>
      match fromdictFields rest with
      | .error e => .error e
      | .ok fs2 => .ok (fs ++ fs2)
end

/-- `fromdict(dcname, data)`: collect the inferred fields, then
`create_dc` (= `make_dataclass`) validates the collected names. -/
def fromdict (dcname : String) (data : List (String × Value)) : Except PyErr DC :=
  match fromdictFields data with
  | .error e => .error e
  | .ok fs => create_dc dcname fs

mutual
/-- Proof-side companion of `fromdictField1`: the field entries it produces
when no `make_dataclass` validation fires. -/
def inferField1 : String → Value → List DCField
  | k, .dictV kvs => [(k, PyType.dcT (DC.mk k (inferFields kvs)), none)]
  | k, .listV xs => [(k, inferListTy xs, none)]
  | k, .intV n => [(k, typeof (.intV n), none)]
  | k, .floatV n => [(k, typeof (.floatV n), none)]
  | k, .boolV b => [(k, typeof (.boolV b), none)]
  | k, .strV s => [(k, typeof (.strV s), none)]
  | _, _ => []

/-- Proof-side companion of `fromdictFields`. -/
def inferFields : List (String × Value) → List DCField
  | [] => []
  | (k, v) :: rest => inferField1 k v ++ inferFields rest
end

/-! ## Schema printing (`print_dc`) -/

/-- One emitted field line, `   name: typeName`. -/
def fieldLine (fn : String) (t : PyType) : String :=
  "   " ++ fn ++ ": " ++ t.pyName ++ "\n"

/-- The two header lines of one definition. -/
def dcHeader (n : String) : String :=
  "@dataclass\nclass " ++ n ++ ":\n"

mutual
/-- `print_dc(dcroot)`: write the header, then fold over the fields. -/
def print_dc : DC → String
  | .mk n flds => printDCAux flds (dcHeader n)

/-- The field loop of `print_dc` with the accumulated buffer `s`: a
dataclass-typed field first replaces `s` by `print_dc(child) ++ "\n\n" ++ s`
(the whole buffer so far is pushed *behind* the freshly rendered child);
every field then appends its own line at the end. -/
def printDCAux : List DCField → String → String
  | [], s => s
  | (fn, t, _) :: rest, s =>
    match t with
    | .dcT child => printDCAux rest ((print_dc child ++ "\n\n" ++ s) ++ fieldLine fn t)
    | _ => printDCAux rest (s ++ fieldLine fn t)
end

/-! ## Rendered exception messages

`str(exc)` for each modelled raise site, reproducing the source's f-strings
(single quotes written as `\x27`). -/

/-- Python `repr` of the tuple of literal values, `(1, 2)`. -/
def tupleRepr : List Value → String
  | [] => "()"
  | [x] => "(" ++ pyRepr x ++ ",)"
  | xs => "(" ++ pyReprL xs ++ ")"

/-- `", ".join(names)` (no spaces), as used in both unknown-field messages. -/
def joinNames (names : List String) : String :=
  String.intercalate "," names

/-- The message text of each modelled error. -/
def renderInfo : ErrInfo → String
  | .intParse s => "invalid literal for int() with base 10: \x27" ++ s ++ "\x27"
  | .floatParse s => "could not convert string to float: \x27" ++ s ++ "\x27"
  | .intBadType ty =>
      "int() argument must be a string, a bytes-like object or a number, not \x27"
        ++ ty ++ "\x27"
  | .floatBadType ty =>
      "float() argument must be a string or a number, not \x27" ++ ty ++ "\x27"
  | .unionCall => "Cannot instantiate typing.Union"
  | .unionOfNoTypes => "Cannot take a Union of no types."
  | .unionOfValues => "Union[arg, ...]: each arg must be a type."
  | .issubclassArg => "issubclass() arg 1 must be a class"
  | .joinItem i ty =>
      "sequence item " ++ toString i ++ ": expected str instance, " ++ ty ++ " found"
  | .noneCall => "cannot create \x27NoneType\x27 instances"
  | .notCallable ty => "\x27" ++ ty ++ "\x27 object is not callable"
  | .notIterable ty => "\x27" ++ ty ++ "\x27 object is not iterable"
  | .badArity cls => cls ++ "() takes the wrong number of arguments"
  | .unmodeledCall what => what
  | .unknownFieldTC k cls names =>
      "Unknow field " ++ k ++ " for " ++ cls ++ ". Expected one of ("
        ++ joinNames names ++ ")"
  | .unknownFieldDC k cls names =>
      "Unknow field " ++ k ++ " for " ++ cls ++ "(" ++ joinNames names ++ ")"
  | .literalMismatch cls v lits =>
      "while creating Literal for dataclass " ++ cls ++ ", it seems that "
        ++ pyStrFun v ++ " is not in literal values " ++ tupleRepr lits
  | .scalarCoercion cls v ty inner =>
      "in dataclass " ++ cls ++ ", " ++ pyRepr v ++ " is not " ++ ty ++ ": "
        ++ renderInfo inner
  | .listCoercion cls subty joined inner =>
      "in dataclass " ++ cls ++ " while trying to construct a list of type "
        ++ subty ++ " with values [" ++ joined ++ "]: " ++ renderInfo inner
  | .callableCoercion cls ty v inner =>
      " in dataclass " ++ cls ++ " while trying to construct value from "
        ++ ty ++ "(" ++ pyRepr v ++ "): " ++ renderInfo inner
  | .noConcrete v =>
      "Can\x27t find a way to determine concrete type for " ++ pyStrFun v
  | .construction cls data inner =>
      "while calling " ++ cls ++ "(**data) with this data "
        ++ pyStrFun (.dictV data) ++ ": " ++ renderInfo inner
  | .missingArgs cls names =>
      cls ++ ".__init__() missing required arguments: " ++ joinNames names
  | .unexpectedKw cls k =>
      cls ++ ".__init__() got an unexpected keyword argument \x27" ++ k ++ "\x27"
  | .fieldIdent n => "Field names must be valid identifiers: \x27" ++ n ++ "\x27"
  | .fieldKeyword n => "Field names must not be keywords: \x27" ++ n ++ "\x27"
  | .fieldDup n => "Field name duplicated: \x27" ++ n ++ "\x27"

/-- `str(exc)`: `KeyError` shows the repr of the key, everything else its
message. -/
def renderErr : PyErr → String
  | .valueError i => renderInfo i
  | .typeError i => renderInfo i
  | .keyError k => "\x27" ++ k ++ "\x27"
  | .attributeError a => "\x27object\x27 has no attribute \x27" ++ a ++ "\x27"
  | .notImplementedError i => renderInfo i
  | .nameError n => "name \x27" ++ n ++ "\x27 is not defined"

/-! ## Small observers used by the theorems -/

/-- Is `sub` a contiguous sublist of `l`? -/
def charsContainSub (sub : List Char) : List Char → Bool
  | [] => sub.isEmpty
  | c :: rest => sub.isPrefixOf (c :: rest) || charsContainSub sub rest

/-- Substring test (on the character lists). -/
def strContains (s sub : String) : Bool :=
  charsContainSub sub.data s.data

/-- Did the decode succeed? -/
def isOkE (e : Except PyErr Value) : Bool :=
  match e with
  | .ok _ => true
  | .error _ => false

/-- Is this annotation a dataclass reference? -/
def isDcT : PyType → Bool
  | .dcT _ => true
  | _ => false

/-- Is this annotation a `Union` alias? -/
def isUnionT : PyType → Bool
  | .unionT _ => true
  | _ => false

/-- Is this annotation an `Optional` (a union admitting `None`)? -/
def isOptionalTy : PyType → Bool
  | .unionT args => args.any (fun a => PyType.beq a .noneT)
  | _ => false

/-- Is this value one of the scalar runtime kinds (number, boolean,
string)? -/
def isScalarV : Value → Bool
  | .intV _ => true
  | .floatV _ => true
  | .boolV _ => true
  | .strV _ => true
  | _ => false

/-! ## Helper lemmas -/

/-- Declared fields whose type is not a dataclass are processed by
`parse_dc` without touching the working copy, so a block of them ahead of
the pending list can be discarded. -/
theorem parse_dc_go_skip_known (name : String) (flds : List DCField) (strict : Bool)
    (pre : List (String × Value))
    (hpre : ∀ p ∈ pre, ∃ ty, lookupFld flds p.1 = some ty ∧ isDcT ty = false) :
    ∀ q cpy, parse_dc_go name flds strict (pre ++ q) cpy = parse_dc_go name flds strict q cpy := by
  induction pre with
  | nil => intro q cpy; rfl
  | cons p pre ih =>
    intro q cpy
    obtain ⟨k, v⟩ := p
    obtain ⟨ty, hl, hnd⟩ := hpre (k, v) (by simp)
    have ih' := ih (fun p hp => hpre p (by simp [hp]))
    rw [List.cons_append, parse_dc_go, hl]
    cases ty <;> simp_all [isDcT]

/-- The per-key loop of `parse_dc_typecheck` distributes over list
concatenation. -/
theorem tcLoop_append (clsName : String) (fields_ : List (String × PyType)) (b : Bool)
    (p q : List (String × Value)) :
    ∀ res, tcLoop clsName fields_ b (p ++ q) res =
      match tcLoop clsName fields_ b p res with
      | .ok r => tcLoop clsName fields_ b q r
      | .error e => .error e := by
  induction p with
  | nil => intro res; rfl
  | cons hd tl ih =>
    intro res
    obtain ⟨rawk, v⟩ := hd
    rw [List.cons_append, tcLoop, tcLoop]
    cases htl : tcLookup fields_ (normalizeKey clsName rawk) with
    | none =>
      cases b with
      | false => rfl
      | true => exact ih res
    | some typev =>
      cases hnv : isNullV v with
      | true => simpa using ih res
      | false =>
        cases hcl : classify typev v with
        | error e => simp [hcl]
        | ok strat =>
          cases hdp : dispatch clsName strat v with
          | error e => simp [hcl, hdp]
          | ok r => simpa [hcl, hdp] using ih (assocSet res (normalizeKey clsName rawk) r)

/-- A successful `Cls(**kwargs)` call yields an instance of `Cls` whose
fields are exactly the declared names, in declaration order. -/
theorem dcCallKw_ok_shape (name : String) (flds : List DCField)
    (kwargs : List (String × Value)) (v : Value)
    (h : dcCallKw name flds kwargs = .ok v) :
    ∃ fs, v = .instV name fs ∧ fs.map (fun p => p.1) = flds.map (fun f => f.1) := by
  unfold dcCallKw at h
  cases hu : kwargs.find? (fun kv => (lookupFld flds kv.1).isNone) with
  | some kv => rw [hu] at h; exact absurd h (by simp)
  | none =>
    rw [hu] at h
    cases hm : (flds.filter (fun f => f.2.2.isNone && (assocGet kwargs f.1).isNone)).map
        (fun f => f.1) with
    | nil =>
      rw [hm] at h
      simp only [Except.ok.injEq] at h
      refine ⟨_, h.symm, ?_⟩
      simp [List.map_map]
    | cons m ms => rw [hm] at h; exact absurd h (by simp)

/-- A successful typed decode yields an instance of the schema whose fields
are exactly the declared names in order. -/
theorem parse_dc_typecheck_ok_shape (cls : DC) (data : List (String × Value)) (b : Bool)
    (v : Value) (h : parse_dc_typecheck cls data b = .ok v) :
    ∃ fs, v = .instV cls.name fs ∧ fs.map (fun p => p.1) = cls.flds.map (fun f => f.1) := by
  unfold parse_dc_typecheck at h
  cases hl : tcLoop cls.name (tcFields cls) b data [] with
  | error e => rw [hl] at h; exact absurd h (by simp)
  | ok res =>
    simp only [hl] at h
    cases hc : dcCallKw cls.name cls.flds res with
    | ok r =>
      simp only [hc, Except.ok.injEq] at h
      subst h
      exact dcCallKw_ok_shape cls.name cls.flds res _ hc
    | error e =>
      simp only [hc] at h
      cases e <;> exact absurd h (by simp)

/-- Under the Strict policy the per-key loop fails whenever the pending list
contains a pair whose normalized key is not declared. -/
theorem tcLoop_strict_error_of_unknown (clsName : String)
    (fields_ : List (String × PyType)) :
    ∀ (data : List (String × Value)) (res : List (String × Value)),
      (∃ p ∈ data, tcLookup fields_ (normalizeKey clsName p.1) = none) →
      ∃ e, tcLoop clsName fields_ false data res = .error e := by
  intro data
  induction data with
  | nil => intro res h; simp at h
  | cons hd rest ih =>
    intro res h
    obtain ⟨rk, v⟩ := hd
    rw [tcLoop]
    cases hl : tcLookup fields_ (normalizeKey clsName rk) with
    | none => exact ⟨_, rfl⟩
    | some typev =>
      have hbad : ∃ p ∈ rest, tcLookup fields_ (normalizeKey clsName p.1) = none := by
        obtain ⟨p, hp, hpn⟩ := h
        rcases List.mem_cons.1 hp with heq | hmem
        · subst heq; rw [hl] at hpn; exact absurd hpn (by simp)
        · exact ⟨p, hmem, hpn⟩
      cases hnv : isNullV v with
      | true => simpa using ih res hbad
      | false =>
        cases hcl : classify typev v with
        | error e => exact ⟨e, by simp [hnv, hcl]⟩
        | ok strat =>
          cases hdp : dispatch clsName strat v with
          | error e => exact ⟨e, by simp [hnv, hcl, hdp]⟩
          | ok r =>
            obtain ⟨e, he⟩ := ih (assocSet res (normalizeKey clsName rk) r) hbad
            exact ⟨e, by simp [hnv, hcl, hdp, he]⟩

/-- An association list read misses every key that is not among the entry
names. -/
theorem assocGet_eq_none (l : List (String × Value)) (k : String)
    (h : ∀ p ∈ l, p.1 ≠ k) : assocGet l k = none := by
  unfold assocGet
  have hf : l.find? (fun p => p.1 == k) = none := by
    rw [List.find?_eq_none]
    intro p hp
    simpa using h p hp
  rw [hf]
  rfl

/-- In-place update at one key leaves every other key's binding unchanged. -/
theorem assocGet_map_set_ne (k f : String) (r : Value) (hne : k ≠ f) :
    ∀ l : List (String × Value),
      assocGet (l.map (fun p => if p.1 == k then (k, r) else p)) f = assocGet l f := by
  have hkf : ((k : String) == f) = false := by simpa using hne
  intro l
  induction l with
  | nil => rfl
  | cons p rest ih =>
    simp only [List.map_cons]
    by_cases hp : (p.1 == k) = true
    · have hp1 : p.1 = k := by simpa using hp
      have hpf : (p.1 == f) = false := by simpa [hp1] using hne
      unfold assocGet
      rw [List.find?_cons_of_neg, List.find?_cons_of_neg]
      · exact ih
      · simp [hpf]
      · simp [hp, hkf]
    · unfold assocGet
      by_cases hpf : (p.1 == f) = true
      · rw [List.find?_cons_of_pos, List.find?_cons_of_pos]
        · simp [hp]
        · simp [hpf]
        · simp [hp, hpf]
      · rw [List.find?_cons_of_neg, List.find?_cons_of_neg]
        · exact ih
        · simp [hpf]
        · simp [hp, hpf]

/-- Appending a binding for a different key does not affect a read. -/
theorem assocGet_append_ne (l : List (String × Value)) (k f : String) (r : Value)
    (hne : k ≠ f) : assocGet (l ++ [(k, r)]) f = assocGet l f := by
  unfold assocGet
  rw [List.find?_append]
  cases hl : l.find? (fun p => p.1 == f) with
  | some p => rfl
  | none =>
    have hkf : ((k : String) == f) = false := by simpa using hne
    simp [List.find?, hkf]

/-- Updating one key of the working accumulator leaves every other key's
binding unchanged. -/
theorem assocGet_assocSet_ne (l : List (String × Value)) (k f : String) (r : Value)
    (hne : k ≠ f) : assocGet (assocSet l k r) f = assocGet l f := by
  unfold assocSet
  by_cases hex : (l.any (fun p => p.1 == k)) = true
  · simp only [hex, if_true]
    exact assocGet_map_set_ne k f r hne l
  · rw [Bool.not_eq_true] at hex
    simp only [hex, Bool.false_eq_true, if_false]
    exact assocGet_append_ne l k f r hne

/-- If every pending pair that would normalize to `f` carries a null value,
the accumulator never acquires a binding for `f`. -/
theorem tcLoop_not_bound (clsName : String) (fields_ : List (String × PyType)) (b : Bool)
    (f : String) :
    ∀ (data res res' : List (String × Value)),
      (∀ p ∈ data, normalizeKey clsName p.1 = f → p.2 = Value.null) →
      assocGet res f = none →
      tcLoop clsName fields_ b data res = .ok res' →
      assocGet res' f = none := by
  intro data
  induction data with
  | nil =>
    intro res res' _ hres h
    rw [tcLoop] at h
    simp only [Except.ok.injEq] at h
    subst h
    exact hres
  | cons hd rest ih =>
    intro res res' hnull hres h
    obtain ⟨rk, v⟩ := hd
    rw [tcLoop] at h
    cases hl : tcLookup fields_ (normalizeKey clsName rk) with
    | none =>
      rw [hl] at h
      cases b with
      | true => exact ih res res' (fun p hp => hnull p (by simp [hp])) hres h
      | false => simp at h
    | some typev =>
      rw [hl] at h
      cases hnv : isNullV v with
      | true =>
        rw [hnv] at h
        simp only [if_true] at h
        exact ih res res' (fun p hp => hnull p (by simp [hp])) hres h
      | false =>
        rw [hnv] at h
        simp only [Bool.false_eq_true, if_false] at h
        cases hcl : classify typev v with
        | error e => simp only [hcl] at h; exact absurd h (by simp)
        | ok strat =>
          simp only [hcl] at h
          cases hdp : dispatch clsName strat v with
          | error e => simp only [hdp] at h; exact absurd h (by simp)
          | ok r =>
            simp only [hdp] at h
            have hrk : normalizeKey clsName rk ≠ f := by
              intro heq
              have := hnull (rk, v) (by simp) heq
              simp only at this
              subst this
              simp [isNullV] at hnv
            refine ih (assocSet res (normalizeKey clsName rk) r) res'
              (fun p hp => hnull p (by simp [hp])) ?_ h
            rw [assocGet_assocSet_ne res (normalizeKey clsName rk) f r hrk]
            exact hres

/-- First-match lookup in a name-preserving image of a duplicate-free field
list finds the image of the member. -/
theorem assocGet_map_of_mem (flds : List DCField) (g : DCField → Value) (x : DCField)
    (hx : x ∈ flds) (hnd : (flds.map (fun y => y.1)).Nodup) :
    assocGet (flds.map (fun y => (y.1, g y))) x.1 = some (g x) := by
  induction flds with
  | nil => simp at hx
  | cons y rest ih =>
    simp only [List.map_cons, List.nodup_cons] at hnd
    rcases List.mem_cons.1 hx with heq | hmem
    · subst heq
      unfold assocGet
      simp [List.find?_cons]
    · have hne : (y.1 == x.1) = false := by
        have : x.1 ∈ rest.map (fun y => y.1) := List.mem_map_of_mem _ hmem
        have hyx : y.1 ≠ x.1 := fun heq => hnd.1 (heq ▸ this)
        simpa using hyx
      unfold assocGet
      simp only [List.map_cons, List.find?_cons, hne]
      exact ih hmem hnd.2

/-- A field with a declared default that is never supplied by the keyword
arguments comes out of a successful construction carrying its default. -/
theorem dcCallKw_default (name : String) (flds : List DCField)
    (kwargs : List (String × Value)) (f : String) (ty : PyType) (d : Value)
    (nm : String) (fs : List (String × Value))
    (hf : (f, ty, some d) ∈ flds)
    (hnd : (flds.map (fun y => y.1)).Nodup)
    (hkw : assocGet kwargs f = none)
    (h : dcCallKw name flds kwargs = .ok (.instV nm fs)) :
    assocGet fs f = some d := by
  unfold dcCallKw at h
  cases hu : kwargs.find? (fun kv => (lookupFld flds kv.1).isNone) with
  | some kv => rw [hu] at h; simp at h
  | none =>
    rw [hu] at h
    cases hm : (flds.filter (fun x => x.2.2.isNone && (assocGet kwargs x.1).isNone)).map
        (fun x => x.1) with
    | cons m ms => rw [hm] at h; simp at h
    | nil =>
      rw [hm] at h
      simp only [Except.ok.injEq, Value.instV.injEq] at h
      obtain ⟨-, hfs⟩ := h
      subst hfs
      have := assocGet_map_of_mem flds
        (fun y => match assocGet kwargs y.1 with
                  | some v => v
                  | none => y.2.2.getD Value.null) (f, ty, some d) hf hnd
      simpa [hkw] using this

/-! ## C1 -/

/-- C1: for any schema and raw mapping containing a pair whose normalized
key is not a declared field: (i) the Strict decode always fails; (ii) when
the pairs before it process without error, the failure is precisely the
unknown-field `TypeError` naming the normalized key and the schema's
declared field names in order; (iii) the Lenient decode of the same mapping
equals the decode with that pair removed (the key is silently dropped); and
(iv) a successful Lenient decode yields a record with no binding for that
key. -/
theorem c1_unknown_field_policies (cls : DC) (pre post : List (String × Value))
    (k : String) (v : Value)
    (hunk : tcLookup (tcFields cls) (normalizeKey cls.name k) = none) :
    (∃ e, parse_dc_typecheck cls (pre ++ (k, v) :: post) false = .error e) ∧
    (∀ res₀, tcLoop cls.name (tcFields cls) false pre [] = .ok res₀ →
      parse_dc_typecheck cls (pre ++ (k, v) :: post) false =
        .error (.typeError (.unknownFieldTC (normalizeKey cls.name k) cls.name
          ((tcFields cls).map (fun f => f.1))))) ∧
    (tcLoop cls.name (tcFields cls) true (pre ++ (k, v) :: post) [] =
      tcLoop cls.name (tcFields cls) true (pre ++ post) []) ∧
    (∀ out, parse_dc_typecheck cls (pre ++ (k, v) :: post) true = .ok out ↔
      parse_dc_typecheck cls (pre ++ post) true = .ok out) ∧
    (∀ nm fs, parse_dc_typecheck cls (pre ++ (k, v) :: post) true = .ok (.instV nm fs) →
      assocGet fs (normalizeKey cls.name k) = none) := by
  have hstep : ∀ res₀, tcLoop cls.name (tcFields cls) true ((k, v) :: post) res₀ =
      tcLoop cls.name (tcFields cls) true post res₀ := by
    intro res₀
    rw [tcLoop, hunk]
    rfl
  have hloopeq : tcLoop cls.name (tcFields cls) true (pre ++ (k, v) :: post) [] =
      tcLoop cls.name (tcFields cls) true (pre ++ post) [] := by
    rw [tcLoop_append, tcLoop_append]
    cases tcLoop cls.name (tcFields cls) true pre [] with
    | error e => rfl
    | ok r => simp only [hstep r]
  refine ⟨?_, ?_, hloopeq, ?_, ?_⟩
  · obtain ⟨e, he⟩ := tcLoop_strict_error_of_unknown cls.name (tcFields cls)
      (pre ++ (k, v) :: post) [] ⟨(k, v), by simp, hunk⟩
    refine ⟨e, ?_⟩
    unfold parse_dc_typecheck
    simp only [he]
  · intro res₀ hpre
    have hloop : tcLoop cls.name (tcFields cls) false (pre ++ (k, v) :: post) [] =
        .error (.typeError (.unknownFieldTC (normalizeKey cls.name k) cls.name
          ((tcFields cls).map (fun f => f.1)))) := by
      rw [tcLoop_append, hpre]
      simp only
      rw [tcLoop, hunk]
      rfl
    unfold parse_dc_typecheck
    simp only [hloop]
  · intro out
    unfold parse_dc_typecheck
    rw [hloopeq]
    cases tcLoop cls.name (tcFields cls) true (pre ++ post) [] with
    | error e => exact Iff.rfl
    | ok res =>
      simp only
      cases hdc : dcCallKw cls.name cls.flds res with
      | ok r => simp [hdc]
      | error e => cases e <;> simp [hdc]
  · intro nm fs h
    obtain ⟨gs, heq, hnames⟩ := parse_dc_typecheck_ok_shape cls _ true _ h
    injection heq with h1 h2
    subst h2
    have hfind : (tcFields cls).find?
        (fun f => f.1 == normalizeKey cls.name k) = none := by
      have := hunk
      unfold tcLookup at this
      exact Option.map_eq_none'.1 this
    have hall := List.find?_eq_none.1 hfind
    refine assocGet_eq_none fs (normalizeKey cls.name k) ?_
    intro p hp hpk
    have hp1 : p.1 ∈ cls.flds.map (fun f => f.1) := by
      rw [← hnames]
      exact List.mem_map_of_mem _ hp
    obtain ⟨f₀, hf₀, hf₀1⟩ := List.mem_map.1 hp1
    have hmem : (f₀.1, f₀.2.1) ∈ tcFields cls := List.mem_map_of_mem _ hf₀
    have := hall _ hmem
    simp only [hf₀1, hpk] at this
    exact this (by simp)

/-- The spec example schema `S{a: str, b: int}`. -/
def sampleS : DC := .mk "S" [("a", .strT, none), ("b", .intT, none)]

/-- C1 witness: the spec's own example — schema `S{a: str, b: int}` with
input `{a: "x", b: 1, c: true}`: Strict fails with
`UnknownField("c", ["a","b"])`, Lenient succeeds with no trace of `c`. -/
theorem c1_witness :
    tcLookup (tcFields sampleS) (normalizeKey sampleS.name "c") = none ∧
    ((∃ e, parse_dc_typecheck sampleS
        ([("a", .strV "x"), ("b", .intV 1)] ++ ("c", .boolV true) :: []) false =
        .error e) ∧
      (∀ res₀,
        tcLoop sampleS.name (tcFields sampleS) false
            [("a", .strV "x"), ("b", .intV 1)] [] = .ok res₀ →
        parse_dc_typecheck sampleS
            ([("a", .strV "x"), ("b", .intV 1)] ++ ("c", .boolV true) :: []) false =
          .error (.typeError (.unknownFieldTC (normalizeKey sampleS.name "c")
            sampleS.name ((tcFields sampleS).map (fun f => f.1))))) ∧
      (tcLoop sampleS.name (tcFields sampleS) true
          ([("a", .strV "x"), ("b", .intV 1)] ++ ("c", .boolV true) :: []) [] =
        tcLoop sampleS.name (tcFields sampleS) true
          ([("a", .strV "x"), ("b", .intV 1)] ++ []) []) ∧
      (∀ out, parse_dc_typecheck sampleS
          ([("a", .strV "x"), ("b", .intV 1)] ++ ("c", .boolV true) :: []) true =
          .ok out ↔
        parse_dc_typecheck sampleS
          ([("a", .strV "x"), ("b", .intV 1)] ++ []) true = .ok out) ∧
      (∀ nm fs,
        parse_dc_typecheck sampleS
            ([("a", .strV "x"), ("b", .intV 1)] ++ ("c", .boolV true) :: []) true =
          .ok (.instV nm fs) →
        assocGet fs (normalizeKey sampleS.name "c") = none)) ∧
    parse_dc_typecheck sampleS
        [("a", .strV "x"), ("b", .intV 1), ("c", .boolV true)] false =
      .error (.typeError (.unknownFieldTC "c" "S" ["a", "b"])) ∧
    parse_dc_typecheck sampleS
        [("a", .strV "x"), ("b", .intV 1), ("c", .boolV true)] true =
      .ok (.instV "S" [("a", .strV "x"), ("b", .intV 1)]) := by
  refine ⟨rfl, ?_, rfl, rfl⟩
  exact c1_unknown_field_policies sampleS
    [("a", .strV "x"), ("b", .intV 1)] [] "c" (.boolV true) rfl

/-! ## C2 -/

/-- C2: a field whose input value is null is skipped during per-key
processing (first conjunct, for any declared key); and for any schema with
an optional field declared with a `None` default, if every input pair for
that field is null (in particular if the field is absent), then any
successful decode — either policy — carries that field bound to `None`
(not zero, not an error). -/
theorem c2_null_optional_fields (cls : DC) (data : List (String × Value)) (b : Bool)
    (f : String) (ty : PyType)
    (_hopt : isOptionalTy ty = true)
    (hf : (f, ty, some Value.null) ∈ cls.flds)
    (hnd : (cls.flds.map (fun y => y.1)).Nodup)
    (hnull : ∀ p ∈ data, normalizeKey cls.name p.1 = f → p.2 = Value.null) :
    (∀ (clsName : String) (fields_ : List (String × PyType)) (b' : Bool)
        (k : String) (typev : PyType) (rest res : List (String × Value)),
      tcLookup fields_ (normalizeKey clsName k) = some typev →
      tcLoop clsName fields_ b' ((k, Value.null) :: rest) res =
        tcLoop clsName fields_ b' rest res) ∧
    (∀ nm fs, parse_dc_typecheck cls data b = .ok (.instV nm fs) →
      assocGet fs f = some Value.null) := by
  constructor
  · intro clsName fields_ b' k typev rest res hi
    rw [tcLoop, hi]
    rfl
  · intro nm fs h
    unfold parse_dc_typecheck at h
    cases hl : tcLoop cls.name (tcFields cls) b data [] with
    | error e => simp only [hl] at h; exact absurd h (by simp)
    | ok res =>
      simp only [hl] at h
      have hres : assocGet res f = none :=
        tcLoop_not_bound cls.name (tcFields cls) b f data [] res hnull rfl hl
      cases hc : dcCallKw cls.name cls.flds res with
      | ok r =>
        simp only [hc, Except.ok.injEq] at h
        subst h
        exact dcCallKw_default cls.name cls.flds res f ty Value.null nm fs hf hnd hres hc
      | error e =>
        simp only [hc] at h
        cases e <;> exact absurd h (by simp)

/-- C2 witness: `P{name: str, age: Optional[int] = None}` decoded from
`{name: "n", age: null}` (explicit null) and from `{name: "n"}` (absent):
both succeed with `age = None`. -/
theorem c2_witness :
    (isOptionalTy (PyType.unionT [.intT, .noneT]) = true ∧
      ("age", PyType.unionT [.intT, .noneT], some Value.null) ∈
        (DC.mk "P" [("name", .strT, none),
          ("age", .unionT [.intT, .noneT], some Value.null)]).flds ∧
      ((DC.mk "P" [("name", .strT, none),
          ("age", .unionT [.intT, .noneT], some Value.null)]).flds.map
        (fun y => y.1)).Nodup) ∧
    (∀ nm fs, parse_dc_typecheck
        (DC.mk "P" [("name", .strT, none),
          ("age", .unionT [.intT, .noneT], some Value.null)])
        [("name", .strV "n"), ("age", Value.null)] false = .ok (.instV nm fs) →
      assocGet fs "age" = some Value.null) ∧
    (∀ nm fs, parse_dc_typecheck
        (DC.mk "P" [("name", .strT, none),
          ("age", .unionT [.intT, .noneT], some Value.null)])
        [("name", .strV "n")] false = .ok (.instV nm fs) →
      assocGet fs "age" = some Value.null) ∧
    parse_dc_typecheck
        (DC.mk "P" [("name", .strT, none),
          ("age", .unionT [.intT, .noneT], some Value.null)])
        [("name", .strV "n"), ("age", Value.null)] false =
      .ok (.instV "P" [("name", .strV "n"), ("age", Value.null)]) ∧
    parse_dc_typecheck
        (DC.mk "P" [("name", .strT, none),
          ("age", .unionT [.intT, .noneT], some Value.null)])
        [("name", .strV "n")] false =
      .ok (.instV "P" [("name", .strV "n"), ("age", Value.null)]) := by
  refine ⟨⟨rfl, by simp [DC.flds], by simp [DC.flds]⟩, ?_, ?_, rfl, rfl⟩
  · exact (c2_null_optional_fields
      (DC.mk "P" [("name", .strT, none),
        ("age", .unionT [.intT, .noneT], some Value.null)])
      [("name", .strV "n"), ("age", Value.null)] false "age"
      (.unionT [.intT, .noneT]) rfl (by simp [DC.flds]) (by simp [DC.flds])
      (by
        intro p hp
        simp only [List.mem_cons, List.mem_singleton] at hp
        rcases hp with hp | hp
        · subst hp
          intro habs
          exact absurd habs (by decide)
        · simp at hp
          subst hp
          intro _
          rfl)).2
  · exact (c2_null_optional_fields
      (DC.mk "P" [("name", .strT, none),
        ("age", .unionT [.intT, .noneT], some Value.null)])
      [("name", .strV "n")] false "age"
      (.unionT [.intT, .noneT]) rfl (by simp [DC.flds]) (by simp [DC.flds])
      (by
        intro p hp
        simp only [List.mem_singleton] at hp
        subst hp
        intro habs
        exact absurd habs (by decide))).2

/-! ## C10 -/

/-- C10: in `parse_dc`, a raw key that begins with the `__` privacy marker,
is not itself a declared field, and whose rewritten form
`"_" ++ name ++ key` is not declared either, raises `KeyError` (from the
`flds[k]` field-type lookup) rather than the unknown-field `TypeError`, and
the strict/lenient flag is never consulted for that key — the result is the
same `KeyError` for both policies.  The keys before it are assumed declared
with non-dataclass types so that processing reaches the private key. -/
theorem c10_private_key_raises_keyerror
    (name : String) (flds : List DCField) (strict : Bool)
    (pre post : List (String × Value)) (k : String) (v : Value)
    (huu : startsWithUU k = true)
    (hk : lookupFld flds k = none)
    (hk2 : lookupFld flds ("_" ++ name ++ k) = none)
    (hpre : ∀ p ∈ pre, ∃ ty, lookupFld flds p.1 = some ty ∧ isDcT ty = false) :
    parse_dc (.mk name flds) (.dictV (pre ++ (k, v) :: post)) strict =
      .error (.keyError ("_" ++ name ++ k)) := by
  show parse_dc_go name flds strict (pre ++ (k, v) :: post) (pre ++ (k, v) :: post) =
    .error (.keyError ("_" ++ name ++ k))
  rw [parse_dc_go_skip_known name flds strict pre hpre]
  rw [parse_dc_go, hk]
  simp [huu, hk2]

/-- C10 witness: the cat-facts `__v` key against a schema that does not
declare `_Fact__v`. -/
theorem c10_witness :
    startsWithUU "__v" = true ∧
    lookupFld [("text", PyType.strT, none)] "__v" = none ∧
    lookupFld [("text", PyType.strT, none)] "_Fact__v" = none ∧
    parse_dc (.mk "Fact" [("text", .strT, none)])
        (.dictV [("text", .strV "t"), ("__v", .intV 0)]) true =
      .error (.keyError "_Fact__v") := by
  refine ⟨rfl, rfl, rfl, ?_⟩
  exact c10_private_key_raises_keyerror "Fact" [("text", PyType.strT, none)] true
    [("text", Value.strV "t")] [] "__v" (Value.intV 0) rfl rfl rfl
    (by intro p hp; simp at hp; subst hp; exact ⟨PyType.strT, rfl, rfl⟩)

/-! ## C4 -/

/-- C4 counterexample: for a field declared `Optional[Union[int, str]]`
(which is the single annotation `Union[int, str, NoneType]`), resolution
does *not* pick the first concrete member `int`: `unpack_union` rebuilds the
union of the surviving members, and decoding the convertible value `5` then
fails with the `issubclass() arg 1 must be a class` `TypeError` rather than
succeeding through `int`. -/
theorem c4_counterexample :
    unpack_union (.unionT [.intT, .strT, .noneT]) = .ok (.unionT [.intT, .strT]) ∧
    PyType.unionT [.intT, .strT] ≠ PyType.intT ∧
    parse_dc_typecheck (.mk "Foo" [("u", .unionT [.intT, .strT, .noneT], none)])
        [("u", .intV 5)] false = .error (.typeError .issubclassArg) ∧
    isOkE (parse_dc_typecheck (.mk "Foo" [("u", .unionT [.intT, .strT, .noneT], none)])
        [("u", .intV 5)] false) = false := by
  refine ⟨rfl, ?_, rfl, rfl⟩
  intro h
  exact PyType.noConfusion h

/-- C4 (amended): `unpack_union` strips `NoneType` and `Any` from a union;
when exactly one member survives it becomes the sole expected type (and,
e.g., an `Optional[int]` field decodes an integer through `int`), but when
several concrete members survive the resolved type is the *union of them* —
not the first member — and decoding such a field with a non-null value fails
with the `issubclass` `TypeError`. -/
theorem c4_amended_union_resolution :
    (∀ t : PyType, isNoneOrAny t = false → isUnionT t = false →
      unpack_union (.unionT [t, .noneT]) = .ok t) ∧
    (∀ (clsName : String) (fields_ : List (String × PyType)) (b : Bool)
        (k : String) (n : Int) (rest res : List (String × Value)),
      tcLookup fields_ (normalizeKey clsName k) = some (.unionT [.intT, .noneT]) →
      tcLoop clsName fields_ b ((k, .intV n) :: rest) res =
        tcLoop clsName fields_ b rest
          (assocSet res (normalizeKey clsName k) (.intV n))) ∧
    (∀ (clsName : String) (fields_ : List (String × PyType)) (b : Bool)
        (k : String) (v : Value) (args us : List PyType)
        (rest res : List (String × Value)),
      isNullV v = false →
      tcLookup fields_ (normalizeKey clsName k) = some (.unionT args) →
      unpack_union (.unionT args) = .ok (.unionT us) →
      tcLoop clsName fields_ b ((k, v) :: rest) res =
        .error (.typeError .issubclassArg)) := by
  refine ⟨?_, ?_, ?_⟩
  · intro t hna hnu
    cases t <;> simp_all [unpack_union, pyArgs, mkUnion, dedupFirst, isNoneOrAny, isUnionT]
  · intro clsName fields_ b k n rest res hi
    rw [tcLoop, hi]
    rfl
  · intro clsName fields_ b k v args us rest res hv hi hu
    rw [tcLoop, hi]
    simp only [hv, Bool.false_eq_true, if_false, classify, hu]
    rfl

/-- C4 witness for the amended theorem: `Optional[int]` resolves to `int`
and decodes `7`; `Optional[Union[int, str]]` leaves `Union[int, str]` and
fails. -/
theorem c4_witness :
    (isNoneOrAny PyType.intT = false ∧ isUnionT PyType.intT = false ∧
      unpack_union (.unionT [.intT, .noneT]) = .ok .intT) ∧
    (tcLookup [("age", PyType.unionT [.intT, .noneT])] "age" =
        some (.unionT [.intT, .noneT]) ∧
      tcLoop "P" [("age", PyType.unionT [.intT, .noneT])] false
          [("age", .intV 7)] [] =
        tcLoop "P" [("age", PyType.unionT [.intT, .noneT])] false []
          (assocSet [] "age" (.intV 7))) ∧
    (isNullV (Value.intV 5) = false ∧
      unpack_union (.unionT [.intT, .strT, .noneT]) = .ok (.unionT [.intT, .strT]) ∧
      tcLoop "Foo" [("u", PyType.unionT [.intT, .strT, .noneT])] false
          [("u", .intV 5)] [] = .error (.typeError .issubclassArg)) := by
  refine ⟨⟨rfl, rfl, ?_⟩, ⟨rfl, ?_⟩, rfl, rfl, ?_⟩
  · exact c4_amended_union_resolution.1 PyType.intT rfl rfl
  · exact c4_amended_union_resolution.2.1 "P" [("age", PyType.unionT [.intT, .noneT])]
      false "age" 7 [] [] rfl
  · exact c4_amended_union_resolution.2.2 "Foo"
      [("u", PyType.unionT [.intT, .strT, .noneT])] false "u" (.intV 5)
      [.intT, .strT, .noneT] [.intT, .strT] [] [] rfl rfl rfl

/-! ## C5 -/

/-- C5 counterexample: a field `ListOf(Optional(int))` does *not* behave as
`ListOf(int)` with nulls skipped.  On the null-free input `[1]` the claimed
behaviour is the `ListOf(int)` result `Foo(l=[1])`, but the actual decode
raises `TypeError: Cannot instantiate typing.Union`, because the element
constructor is the unstripped `Optional[int]` union. -/
theorem c5_counterexample :
    parse_dc_typecheck (.mk "Foo" [("l", .listT [.unionT [.intT, .noneT]], none)])
        [("l", .listV [.intV 1])] false = .error (.typeError .unionCall) ∧
    parse_dc_typecheck (.mk "Foo" [("l", .listT [.intT], none)])
        [("l", .listV [.intV 1])] false =
      .ok (.instV "Foo" [("l", .listV [.intV 1])]) ∧
    (Except.error (PyErr.typeError .unionCall) : Except PyErr Value) ≠
      .ok (.instV "Foo" [("l", .listV [.intV 1])]) := by
  refine ⟨rfl, rfl, ?_⟩
  intro h
  exact Except.noConfusion h

/-- C5 (amended): optional stripping does not reach inside `ListOf`:
the element type of `List[Optional[int]]` resolves to `Optional[int]`
itself, so decoding any *nonempty* list — null elements or not — fails with
`TypeError: Cannot instantiate typing.Union` at the first element, while the
empty list decodes to `[]`. -/
theorem c5_amended_list_optional :
    (unpack_union (.listT [.unionT [.intT, .noneT]]) = .ok (.unionT [.intT, .noneT])) ∧
    (∀ (clsName : String) (fields_ : List (String × PyType)) (b : Bool)
        (k : String) (x : Value) (xs : List Value) (rest res : List (String × Value)),
      tcLookup fields_ (normalizeKey clsName k) =
          some (.listT [.unionT [.intT, .noneT]]) →
      tcLoop clsName fields_ b ((k, .listV (x :: xs)) :: rest) res =
        .error (.typeError .unionCall)) ∧
    (∀ (clsName : String) (fields_ : List (String × PyType)) (b : Bool)
        (k : String) (rest res : List (String × Value)),
      tcLookup fields_ (normalizeKey clsName k) =
          some (.listT [.unionT [.intT, .noneT]]) →
      tcLoop clsName fields_ b ((k, .listV []) :: rest) res =
        tcLoop clsName fields_ b rest
          (assocSet res (normalizeKey clsName k) (.listV []))) := by
  refine ⟨rfl, ?_, ?_⟩
  · intro clsName fields_ b k x xs rest res hi
    rw [tcLoop, hi]
    rfl
  · intro clsName fields_ b k rest res hi
    rw [tcLoop, hi]
    rfl

/-- C5 witness for the amended theorem: `[1]` (no nulls at all) fails, `[]`
decodes to the empty list. -/
theorem c5_witness :
    (tcLookup [("l", PyType.listT [.unionT [.intT, .noneT]])] "l" =
        some (.listT [.unionT [.intT, .noneT]]) ∧
      tcLoop "Foo" [("l", PyType.listT [.unionT [.intT, .noneT]])] false
          [("l", .listV [.intV 1])] [] = .error (.typeError .unionCall)) ∧
    (tcLoop "Foo" [("l", PyType.listT [.unionT [.intT, .noneT]])] false
        [("l", .listV [])] [] =
      tcLoop "Foo" [("l", PyType.listT [.unionT [.intT, .noneT]])] false []
        (assocSet [] "l" (.listV []))) := by
  refine ⟨⟨rfl, ?_⟩, ?_⟩
  · exact c5_amended_list_optional.2.1 "Foo"
      [("l", PyType.listT [.unionT [.intT, .noneT]])] false "l" (.intV 1) [] [] [] rfl
  · exact c5_amended_list_optional.2.2 "Foo"
      [("l", PyType.listT [.unionT [.intT, .noneT]])] false "l" [] [] rfl

/-! ## C3 -/

/-- C3 counterexample: on the claim's own example — a `List[int]` field
receiving `[1, "x", 3]` — decode does fail, but not with a field-coercion
error identifying the field and the failing element: building the wrapped
message joins the *raw* elements with `", ".join(v)`, which itself raises on
the integer at index 0, so the propagated error is the join `TypeError`
whose message names neither the field `qty` nor the failing element
`'x'`. -/
theorem c3_counterexample :
    parse_dc_typecheck (.mk "Order" [("qty", .listT [.intT], none)])
        [("qty", .listV [.intV 1, .strV "x", .intV 3])] false =
      .error (.typeError (.joinItem 0 "int")) ∧
    renderErr (.typeError (.joinItem 0 "int")) =
      "sequence item 0: expected str instance, int found" ∧
    strContains "sequence item 0: expected str instance, int found" "qty" = false ∧
    strContains "sequence item 0: expected str instance, int found" "\x27x\x27" = false := by
  exact ⟨rfl, rfl, rfl, rfl⟩

/-- For a scalar element kind the eagerly computed `list_subtype`
(`unpack_union(List[σ])`) is `σ` itself, so classification yields the list
strategy with element constructor `σ`. -/
theorem classify_list_scalar (σ : PyType) (hσ : isScalarSub σ = true) (v : Value) :
    classify (.listT [σ]) v = .ok (.listS σ) := by
  cases σ <;> simp_all [classify, unpack_union, pyArgs, mkUnion, dedupFirst, isNoneOrAny,
    isScalarSub]

/-- C3 (amended): for a field declared as a list of a scalar kind, decoding
applies the element constructor to every element in order and the first
failing element aborts the decode with no partial list kept; but the
resulting error identifies only the enclosing *dataclass* and the element
type — never the field name — and only when every raw element is a string;
when some raw element is not a string, the error-message formatting itself
fails and a bare join `TypeError` (naming nothing) propagates instead, and
element failures that are `TypeError`s (e.g. a null element for `int`)
propagate completely unwrapped. -/
theorem c3_amended_list_element_errors :
    (∀ (σ : PyType) (as : List Value) (x : Value) (bs : List Value) (e : PyErr),
      (∀ a ∈ as, ∃ r, pyCallType σ a = .ok r) → pyCallType σ x = .error e →
      convList σ (as ++ x :: bs) = .error e) ∧
    (∀ (clsName : String) (fields_ : List (String × PyType)) (b : Bool) (k : String)
        (σ : PyType) (xs ys : List Value) (rest res : List (String × Value)),
      isScalarSub σ = true →
      tcLookup fields_ (normalizeKey clsName k) = some (.listT [σ]) →
      convList σ xs = .ok ys →
      tcLoop clsName fields_ b ((k, .listV xs) :: rest) res =
        tcLoop clsName fields_ b rest
          (assocSet res (normalizeKey clsName k) (.listV ys))) ∧
    (∀ (clsName : String) (fields_ : List (String × PyType)) (b : Bool) (k : String)
        (σ : PyType) (xs : List Value) (i : ErrInfo) (j : String)
        (rest res : List (String × Value)),
      isScalarSub σ = true →
      tcLookup fields_ (normalizeKey clsName k) = some (.listT [σ]) →
      convList σ xs = .error (.valueError i) →
      pyJoin ", " xs = .ok j →
      tcLoop clsName fields_ b ((k, .listV xs) :: rest) res =
        .error (.typeError (.listCoercion clsName σ.pyStrOfType j i))) ∧
    (∀ (clsName : String) (fields_ : List (String × PyType)) (b : Bool) (k : String)
        (σ : PyType) (xs : List Value) (i : ErrInfo) (e : PyErr)
        (rest res : List (String × Value)),
      isScalarSub σ = true →
      tcLookup fields_ (normalizeKey clsName k) = some (.listT [σ]) →
      convList σ xs = .error (.valueError i) →
      pyJoin ", " xs = .error e →
      tcLoop clsName fields_ b ((k, .listV xs) :: rest) res = .error e) ∧
    (∀ (clsName : String) (fields_ : List (String × PyType)) (b : Bool) (k : String)
        (σ : PyType) (xs : List Value) (i : ErrInfo)
        (rest res : List (String × Value)),
      isScalarSub σ = true →
      tcLookup fields_ (normalizeKey clsName k) = some (.listT [σ]) →
      convList σ xs = .error (.typeError i) →
      tcLoop clsName fields_ b ((k, .listV xs) :: rest) res =
        .error (.typeError i)) := by
  refine ⟨?_, ?_, ?_, ?_, ?_⟩
  · intro σ as x bs e hok hx
    induction as with
    | nil => simp [convList, hx]
    | cons a as ih =>
      obtain ⟨r, hr⟩ := hok a (by simp)
      rw [List.cons_append, convList, hr]
      simp only
      rw [ih (fun a ha => hok a (by simp [ha]))]
  · intro clsName fields_ b k σ xs ys rest res hσ hi hc
    rw [tcLoop, hi]
    simp [isNullV, classify_list_scalar σ hσ, dispatch, pyIter, hc]
  · intro clsName fields_ b k σ xs i j rest res hσ hi hc hj
    rw [tcLoop, hi]
    simp [isNullV, classify_list_scalar σ hσ, dispatch, pyIter, hc, hj]
  · intro clsName fields_ b k σ xs i e rest res hσ hi hc hj
    rw [tcLoop, hi]
    simp [isNullV, classify_list_scalar σ hσ, dispatch, pyIter, hc, hj]
  · intro clsName fields_ b k σ xs i rest res hσ hi hc
    rw [tcLoop, hi]
    simp [isNullV, classify_list_scalar σ hσ, dispatch, pyIter, hc]

/-- C3 witness: `["7", "x"]` (all strings, so the wrap succeeds and names
the dataclass `Order` and type `int`, not the field), `[1, "x", 3]` (join
crash), `[null]` (raw TypeError), and `["1", "2"]` (success, in order). -/
theorem c3_witness :
    (isScalarSub PyType.intT = true ∧
      tcLookup [("qty", PyType.listT [.intT])] "qty" = some (.listT [.intT]) ∧
      convList .intT [.strV "7", .strV "x"] =
        .error (.valueError (.intParse "x")) ∧
      pyJoin ", " [.strV "7", .strV "x"] = .ok "7, x" ∧
      tcLoop "Order" [("qty", PyType.listT [.intT])] false
          [("qty", .listV [.strV "7", .strV "x"])] [] =
        .error (.typeError
          (.listCoercion "Order" "<class \x27int\x27>" "7, x" (.intParse "x")))) ∧
    (convList .intT [.intV 1, .strV "x", .intV 3] =
        .error (.valueError (.intParse "x")) ∧
      pyJoin ", " [.intV 1, .strV "x", .intV 3] =
        .error (.typeError (.joinItem 0 "int")) ∧
      tcLoop "Order" [("qty", PyType.listT [.intT])] false
          [("qty", .listV [.intV 1, .strV "x", .intV 3])] [] =
        .error (.typeError (.joinItem 0 "int"))) ∧
    (convList .intT [Value.null] = .error (.typeError (.intBadType "NoneType")) ∧
      tcLoop "Order" [("qty", PyType.listT [.intT])] false
          [("qty", .listV [Value.null])] [] =
        .error (.typeError (.intBadType "NoneType"))) ∧
    (convList .intT [.strV "1", .strV "2"] = .ok [.intV 1, .intV 2] ∧
      tcLoop "Order" [("qty", PyType.listT [.intT])] false
          [("qty", .listV [.strV "1", .strV "2"])] [] =
        tcLoop "Order" [("qty", PyType.listT [.intT])] false []
          (assocSet [] "qty" (.listV [.intV 1, .intV 2]))) ∧
    ((∀ a ∈ [Value.strV "7"], ∃ r, pyCallType .intT a = .ok r) ∧
      pyCallType .intT (.strV "x") = .error (.valueError (.intParse "x")) ∧
      convList .intT ([.strV "7"] ++ .strV "x" :: []) =
        .error (.valueError (.intParse "x"))) := by
  refine ⟨⟨rfl, rfl, rfl, rfl, ?_⟩, ⟨rfl, rfl, ?_⟩, ⟨rfl, ?_⟩, ⟨rfl, ?_⟩, ?_, rfl, ?_⟩
  · exact c3_amended_list_element_errors.2.2.1 "Order" [("qty", PyType.listT [.intT])]
      false "qty" .intT [.strV "7", .strV "x"] (.intParse "x") "7, x" [] [] rfl rfl rfl rfl
  · exact c3_amended_list_element_errors.2.2.2.1 "Order" [("qty", PyType.listT [.intT])]
      false "qty" .intT [.intV 1, .strV "x", .intV 3] (.intParse "x")
      (.typeError (.joinItem 0 "int")) [] [] rfl rfl rfl rfl
  · exact c3_amended_list_element_errors.2.2.2.2 "Order" [("qty", PyType.listT [.intT])]
      false "qty" .intT [Value.null] (.intBadType "NoneType") [] [] rfl rfl rfl
  · exact c3_amended_list_element_errors.2.1 "Order" [("qty", PyType.listT [.intT])]
      false "qty" .intT [.strV "1", .strV "2"] [.intV 1, .intV 2] [] [] rfl rfl rfl
  · intro a ha
    simp at ha
    subst ha
    exact ⟨.intV 7, rfl⟩
  · exact c3_amended_list_element_errors.1 .intT [.strV "7"] (.strV "x") []
      (.valueError (.intParse "x"))
      (by intro a ha; simp at ha; subst ha; exact ⟨.intV 7, rfl⟩) rfl

/-! ## C6 -/

/-- C6 counterexample: a `Dict[str, int]` field receiving `{"a": "x"}` does
not fail with a wrapped field-coercion error naming the enclosing
schema/field: the raw `ValueError` from `int("x")` propagates completely
unwrapped (it is not even a `TypeError`), and its message names neither the
schema `Cfg` nor the field `qty`. -/
theorem c6_counterexample :
    parse_dc_typecheck (.mk "Cfg" [("qty", .dictT [.strT, .intT], none)])
        [("qty", .dictV [("a", .strV "x")])] false =
      .error (.valueError (.intParse "x")) ∧
    renderErr (.valueError (.intParse "x")) =
      "invalid literal for int() with base 10: \x27x\x27" ∧
    strContains "invalid literal for int() with base 10: \x27x\x27" "Cfg" = false ∧
    strContains "invalid literal for int() with base 10: \x27x\x27" "qty" = false ∧
    (PyErr.valueError (.intParse "x") ≠
      PyErr.typeError (.scalarCoercion "Cfg" (.strV "x") "int" (.intParse "x"))) := by
  refine ⟨rfl, rfl, rfl, rfl, ?_⟩
  intro h
  exact PyErr.noConfusion h

/-- C6 (amended): for a map-typed field the decoder applies the key
constructor and then the value constructor to every pair in iteration order;
the first pair whose conversion fails aborts the decode, but its error
propagates *raw and unwrapped* — unlike a list element failure it is not
rewrapped and names neither the enclosing schema nor the field. -/
theorem c6_amended_map_errors :
    (∀ (kt vt : PyType) (as : List (Value × Value)) (pk pv : Value)
        (bs : List (Value × Value)) (e : PyErr),
      (∀ p ∈ as, ∃ rk rv, pyCallType kt p.1 = .ok rk ∧ pyCallType vt p.2 = .ok rv) →
      (pyCallType kt pk = .error e ∨
        (∃ rk, pyCallType kt pk = .ok rk ∧ pyCallType vt pv = .error e)) →
      convPairs kt vt (as ++ (pk, pv) :: bs) = .error e) ∧
    (∀ (clsName : String) (fields_ : List (String × PyType)) (b : Bool) (k : String)
        (kt vt : PyType) (kvs : List (String × Value)) (m : List (Value × Value))
        (rest res : List (String × Value)),
      tcLookup fields_ (normalizeKey clsName k) = some (.dictT [kt, vt]) →
      convPairs kt vt (kvs.map (fun p => (Value.strV p.1, p.2))) = .ok m →
      tcLoop clsName fields_ b ((k, .dictV kvs) :: rest) res =
        tcLoop clsName fields_ b rest
          (assocSet res (normalizeKey clsName k) (.mapV m))) ∧
    (∀ (clsName : String) (fields_ : List (String × PyType)) (b : Bool) (k : String)
        (kt vt : PyType) (kvs : List (String × Value)) (e : PyErr)
        (rest res : List (String × Value)),
      tcLookup fields_ (normalizeKey clsName k) = some (.dictT [kt, vt]) →
      convPairs kt vt (kvs.map (fun p => (Value.strV p.1, p.2))) = .error e →
      tcLoop clsName fields_ b ((k, .dictV kvs) :: rest) res = .error e) := by
  refine ⟨?_, ?_, ?_⟩
  · intro kt vt as pk pv bs e hok hbad
    induction as with
    | nil =>
      rcases hbad with hk | ⟨rk, hrk, hrv⟩
      · simp [convPairs, hk]
      · simp [convPairs, hrk, hrv]
    | cons p as ih =>
      obtain ⟨rk, rv, hrk, hrv⟩ := hok p (by simp)
      obtain ⟨q1, q2⟩ := p
      rw [List.cons_append, convPairs]
      simp only at hrk hrv
      rw [hrk]
      simp only
      rw [hrv]
      simp only
      rw [ih (fun p hp => hok p (by simp [hp]))]
  · intro clsName fields_ b k kt vt kvs m rest res hi hc
    rw [tcLoop, hi]
    simp [isNullV, classify, dispatch, hc]
  · intro clsName fields_ b k kt vt kvs e rest res hi hc
    rw [tcLoop, hi]
    simp [isNullV, classify, dispatch, hc]

/-- C6 witness: `{"a": 1, "b": "x"}` under `Dict[str, int]` fails with the
raw `ValueError` from the second pair (the first pair converts), and
`{"a": 1}` converts both members of every pair. -/
theorem c6_witness :
    (tcLookup [("qty", PyType.dictT [.strT, .intT])] "qty" =
        some (.dictT [.strT, .intT]) ∧
      convPairs .strT .intT
          [(.strV "a", .intV 1), (.strV "b", .strV "x")] =
        .error (.valueError (.intParse "x")) ∧
      tcLoop "Cfg" [("qty", PyType.dictT [.strT, .intT])] false
          [("qty", .dictV [("a", .intV 1), ("b", .strV "x")])] [] =
        .error (.valueError (.intParse "x"))) ∧
    (convPairs .strT .intT [(.strV "a", .intV 1)] =
        .ok [(.strV "a", .intV 1)] ∧
      tcLoop "Cfg" [("qty", PyType.dictT [.strT, .intT])] false
          [("qty", .dictV [("a", .intV 1)])] [] =
        tcLoop "Cfg" [("qty", PyType.dictT [.strT, .intT])] false []
          (assocSet [] "qty" (.mapV [(.strV "a", .intV 1)]))) ∧
    (convPairs .strT .intT
        ([(.strV "a", .intV 1)] ++ (.strV "b", .strV "x") :: []) =
      .error (.valueError (.intParse "x"))) := by
  refine ⟨⟨rfl, rfl, ?_⟩, ⟨rfl, ?_⟩, ?_⟩
  · exact c6_amended_map_errors.2.2 "Cfg" [("qty", PyType.dictT [.strT, .intT])] false
      "qty" .strT .intT [("a", .intV 1), ("b", .strV "x")]
      (.valueError (.intParse "x")) [] [] rfl rfl
  · exact c6_amended_map_errors.2.1 "Cfg" [("qty", PyType.dictT [.strT, .intT])] false
      "qty" .strT .intT [("a", .intV 1)] [(.strV "a", .intV 1)] [] [] rfl rfl
  · exact c6_amended_map_errors.1 .strT .intT [(.strV "a", .intV 1)]
      (.strV "b") (.strV "x") [] (.valueError (.intParse "x"))
      (by intro p hp; simp at hp; subst hp; exact ⟨.strV "a", .intV 1, rfl, rfl⟩)
      (Or.inr ⟨.strV "b", rfl, rfl⟩)

/-! ## C9 -/

/-- The block of child definitions accumulated in front of the buffer: each
dataclass-typed field prepends its full render to everything emitted so
far, so children stack in *reverse* declared order. -/
def childBlocks : List DCField → String
  | [] => ""
  | (_, .dcT c, _) :: rest => childBlocks rest ++ (print_dc c ++ "\n\n")
  | _ :: rest => childBlocks rest

/-- The parent's own field lines, in declared order. -/
def fieldLines : List DCField → String
  | [] => ""
  | (fn, t, _) :: rest => fieldLine fn t ++ fieldLines rest

/-- Closed form of the printer's field loop: the accumulated buffer is
surrounded by the (reversed) child blocks in front and the parent's field
lines behind. -/
theorem printDCAux_closed_form : ∀ (flds : List DCField) (s : String),
    printDCAux flds s = childBlocks flds ++ s ++ fieldLines flds := by
  intro flds
  induction flds with
  | nil => intro s; simp [printDCAux, childBlocks, fieldLines]
  | cons fld rest ih =>
    intro s
    obtain ⟨fn, t, d⟩ := fld
    cases t <;> simp [printDCAux, childBlocks, fieldLines, ih, String.append_assoc]

/-- C9 (amended): `print_dc` renders a schema as the concatenation of the
complete rendered definitions of its record-referenced children — each
child emitted in full, children stacked in *reverse* declared order because
every new child render is pushed in front of all output accumulated so
far — followed by the parent's header and its field lines in declared
order.  Every referenced definition therefore textually precedes its point
of use, and nothing is deduplicated (a doubly-referenced schema is rendered
once per reference, inside each `childBlocks` entry); but a child's
definition is *not* in general immediately before the parent's own
definition text — only the first-declared child is. -/
theorem c9_printer_layout (n : String) (flds : List DCField) :
    print_dc (.mk n flds) = childBlocks flds ++ dcHeader n ++ fieldLines flds := by
  show printDCAux flds (dcHeader n) = childBlocks flds ++ dcHeader n ++ fieldLines flds
  rw [printDCAux_closed_form]

/-- C9 counterexample: `Parent{a: A, b: B}` renders as `B`'s definition,
then `A`'s, then `Parent`'s — `B`'s rendered definition is present but is
*not* emitted immediately before the parent's definition text (`A`'s
definition stands between), refuting "for every field whose type is a
record reference, the child's complete rendered definition is emitted
immediately before the parent's own definition text". -/
theorem c9_counterexample :
    print_dc (.mk "Parent"
        [("a", .dcT (.mk "A" [("x", .strT, none)]), none),
         ("b", .dcT (.mk "B" [("y", .strT, none)]), none)]) =
      "@dataclass\nclass B:\n   y: str\n\n\n@dataclass\nclass A:\n   x: str\n\n\n" ++
        "@dataclass\nclass Parent:\n   a: A\n   b: B\n" ∧
    strContains
      (print_dc (.mk "Parent"
        [("a", .dcT (.mk "A" [("x", .strT, none)]), none),
         ("b", .dcT (.mk "B" [("y", .strT, none)]), none)]))
      (print_dc (.mk "B" [("y", .strT, none)])) = true ∧
    strContains
      (print_dc (.mk "Parent"
        [("a", .dcT (.mk "A" [("x", .strT, none)]), none),
         ("b", .dcT (.mk "B" [("y", .strT, none)]), none)]))
      (print_dc (.mk "B" [("y", .strT, none)]) ++ "\n\n" ++
        "@dataclass\nclass Parent:") = false := by
  exact ⟨rfl, rfl, rfl⟩

/-! ## C8 -/

/-- The one-step accumulator of `dedupFirst`. -/
def dedupStep (acc : List PyType) (t : PyType) : List PyType :=
  if acc.any (fun u => PyType.beq u t) then acc else acc ++ [t]

theorem dedupFirst_eq_foldl (l : List PyType) :
    dedupFirst l = l.foldl dedupStep [] := rfl

/-- Members of the accumulator survive the fold. -/
theorem mem_dedupFold_of_mem_acc (l : List PyType) :
    ∀ (acc : List PyType) (u : PyType), u ∈ acc → u ∈ l.foldl dedupStep acc := by
  induction l with
  | nil => intro acc u hu; exact hu
  | cons x rest ih =>
    intro acc u hu
    simp only [List.foldl_cons]
    refine ih (dedupStep acc x) u ?_
    unfold dedupStep
    by_cases hx : (acc.any (fun w => PyType.beq w x)) = true
    · simpa [hx] using hu
    · rw [Bool.not_eq_true] at hx
      simp [hx, hu]

/-- Every input element has a `beq`-representative in the fold result. -/
theorem exists_beq_mem_dedupFold (l : List PyType) :
    ∀ (acc : List PyType) (t : PyType), t ∈ l → PyType.beq t t = true →
      ∃ u ∈ l.foldl dedupStep acc, PyType.beq u t = true := by
  induction l with
  | nil => intro acc t ht; simp at ht
  | cons x rest ih =>
    intro acc t ht hrefl
    simp only [List.foldl_cons]
    rcases List.mem_cons.1 ht with heq | hmem
    · subst heq
      unfold dedupStep
      by_cases hx : (acc.any (fun w => PyType.beq w t)) = true
      · obtain ⟨u, hu, hbu⟩ := List.any_eq_true.1 hx
        exact ⟨u, mem_dedupFold_of_mem_acc rest _ u (by simpa [hx] using hu), hbu⟩
      · rw [Bool.not_eq_true] at hx
        refine ⟨t, mem_dedupFold_of_mem_acc rest _ t ?_, hrefl⟩
        simp [hx]
    · exact ih _ t hmem hrefl

/-- The fold result only contains accumulator members and input elements. -/
theorem mem_of_mem_dedupFold (l : List PyType) :
    ∀ (acc : List PyType) (u : PyType), u ∈ l.foldl dedupStep acc →
      u ∈ acc ∨ u ∈ l := by
  induction l with
  | nil => intro acc u hu; exact Or.inl hu
  | cons x rest ih =>
    intro acc u hu
    simp only [List.foldl_cons] at hu
    rcases ih _ u hu with h | h
    · unfold dedupStep at h
      by_cases hx : (acc.any (fun w => PyType.beq w x)) = true
      · rw [hx] at h; simp at h; exact Or.inl h
      · rw [Bool.not_eq_true] at hx
        rw [hx] at h
        simp only [Bool.false_eq_true, if_false, List.mem_append,
          List.mem_singleton] at h
        rcases h with h | h
        · exact Or.inl h
        · exact Or.inr (by simp [h])
    · exact Or.inr (by simp [h])

/-- `type(v) == type(v)` holds. -/
theorem typeof_beq_refl (v : Value) : PyType.beq (typeof v) (typeof v) = true := by
  cases v <;> simp [typeof, PyType.beq]

/-- For scalar runtime values, `==` on the runtime classes is class
equality. -/
theorem typeof_beq_sound (a b : Value) (ha : isScalarV a = true)
    (hb : isScalarV b = true) (h : PyType.beq (typeof a) (typeof b) = true) :
    typeof a = typeof b := by
  cases a <;> cases b <;> simp_all [isScalarV, typeof, PyType.beq]

/-- A constant list deduplicates to its single member. -/
theorem dedupFirst_const (t : PyType) (hrefl : PyType.beq t t = true) :
    ∀ l : List PyType, (∀ u ∈ l, u = t) → l ≠ [] → dedupFirst l = [t] := by
  have haux : ∀ (l acc : List PyType), (∀ u ∈ l, u = t) →
      (acc.any (fun w => PyType.beq w t)) = true →
      l.foldl dedupStep acc = acc := by
    intro l
    induction l with
    | nil => intro acc _ _; rfl
    | cons x rest ih =>
      intro acc hall hacc
      have hx : x = t := hall x (by simp)
      subst hx
      simp only [List.foldl_cons]
      rw [show dedupStep acc x = acc from by unfold dedupStep; simp [hacc]]
      exact ih acc (fun u hu => hall u (by simp [hu])) hacc
  intro l hall hne
  match l, hne with
  | x :: rest, _ =>
    have hx : x = t := hall x (by simp)
    subst hx
    rw [dedupFirst_eq_foldl]
    simp only [List.foldl_cons]
    rw [show dedupStep [] x = [x] from by unfold dedupStep; simp]
    exact haux rest [x] (fun u hu => hall u (by simp [hu])) (by simpa using hrefl)

/-- Every field entry produced by one successful pair inference is named
after that pair's key. -/
theorem fromdictField1_names (k0 : String) (v0 : Value) (fs1 : List DCField)
    (h : fromdictField1 k0 v0 = Except.ok fs1) : ∀ f ∈ fs1, f.1 = k0 := by
  intro f hf
  cases v0 with
  | dictV kvs =>
    simp only [fromdictField1] at h
    cases hg : fromdictFields kvs with
    | error e => simp only [hg] at h; exact absurd h (by simp)
    | ok gs =>
      simp only [hg] at h
      cases hc : create_dc k0 gs with
      | error e => simp only [hc] at h; exact absurd h (by simp)
      | ok sub =>
        simp only [hc, Except.ok.injEq] at h
        subst h
        simp only [List.mem_singleton] at hf
        rw [hf]
  | listV xs =>
    simp only [fromdictField1, Except.ok.injEq] at h
    subst h
    simp only [List.mem_singleton] at hf
    rw [hf]
  | intV n =>
    simp only [fromdictField1, Except.ok.injEq] at h
    subst h
    simp only [List.mem_singleton] at hf
    rw [hf]
  | floatV n =>
    simp only [fromdictField1, Except.ok.injEq] at h
    subst h
    simp only [List.mem_singleton] at hf
    rw [hf]
  | boolV b =>
    simp only [fromdictField1, Except.ok.injEq] at h
    subst h
    simp only [List.mem_singleton] at hf
    rw [hf]
  | strV s =>
    simp only [fromdictField1, Except.ok.injEq] at h
    subst h
    simp only [List.mem_singleton] at hf
    rw [hf]
  | null =>
    simp only [fromdictField1, Except.ok.injEq] at h
    subst h
    simp at hf
  | mapV kvs =>
    simp only [fromdictField1, Except.ok.injEq] at h
    subst h
    simp at hf
  | instV nm fs =>
    simp only [fromdictField1, Except.ok.injEq] at h
    subst h
    simp at hf

/-- When the field-collection loop of `fromdict` succeeds, looking the
key of a sequence-valued sample pair up in the collected fields yields that
pair's inferred entry. -/
theorem lookupFld_fromdictFields_find (k : String) (t : PyType) :
    ∀ (data : List (String × Value)) (fs : List DCField) (v : Value),
      fromdictFields data = Except.ok fs →
      data.find? (fun p => p.1 == k) = some (k, v) →
      fromdictField1 k v = Except.ok [(k, t, none)] →
      lookupFld fs k = some t := by
  intro data
  induction data with
  | nil => intro fs v _ hfind; simp [List.find?] at hfind
  | cons p rest ih =>
    intro fs v hok hfind hfld
    obtain ⟨k0, v0⟩ := p
    simp only [fromdictFields] at hok
    cases h1 : fromdictField1 k0 v0 with
    | error e => simp only [h1] at hok; exact absurd hok (by simp)
    | ok fs1 =>
      simp only [h1] at hok
      cases h2 : fromdictFields rest with
      | error e => simp only [h2] at hok; exact absurd hok (by simp)
      | ok fs2 =>
        simp only [h2, Except.ok.injEq] at hok
        subst hok
        by_cases hk0 : (k0 == k) = true
        · rw [List.find?_cons_of_pos _ (by simpa using hk0)] at hfind
          simp only [Option.some.injEq, Prod.mk.injEq] at hfind
          obtain ⟨hk0', hv0⟩ := hfind
          subst hk0'
          subst hv0
          rw [hfld] at h1
          simp only [Except.ok.injEq] at h1
          subst h1
          unfold lookupFld
          simp [List.find?_cons]
        · rw [List.find?_cons_of_neg _ (by simpa using hk0)] at hfind
          rw [Bool.not_eq_true] at hk0
          have hnone : fs1.find? (fun f => f.1 == k) = none := by
            rw [List.find?_eq_none]
            intro f hf
            have hfk := fromdictField1_names k0 v0 fs1 h1 f hf
            simp [hfk, hk0]
          have := ih fs2 v h2 hfind hfld
          unfold lookupFld
          rw [List.find?_append, hnone]
          simpa [lookupFld] using this

/-- C8 counterexample: the claim speaks of *every* key with a sequence
value, but a sequence-valued key that is not a valid Python identifier is
assigned nothing: although the sequence rule itself would give `List[int]`,
`make_dataclass` inside `fromdict` raises `TypeError` while validating the
field name, so inference produces no schema at all. -/
theorem c8_counterexample :
    inferListTy [Value.intV 1, Value.intV 2] = .listT [.intT] ∧
    fromdict "S" [("my-list", Value.listV [.intV 1, .intV 2])]
        = .error (.typeError (.fieldIdent "my-list")) ∧
    renderErr (.typeError (.fieldIdent "my-list"))
        = "Field names must be valid identifiers: \x27my-list\x27" ∧
    isidentifier "my-list" = false :=
  ⟨rfl, rfl, rfl, rfl⟩

/-- C8 (amended): whenever inference succeeds (every collected field name
passes `make_dataclass`'s validation), a key of the sample whose value is a
sequence is assigned: the empty sequence `List[Any]`; a nonempty sequence
whose elements all share one scalar runtime kind `List[thatKind]`; and a
sequence of scalars with at least two distinct runtime kinds the
fixed-arity `Tuple[...]` listing each element's runtime kind in positional
order.  (The key's first binding in the sample is the sequence; keys are
unique in a Python mapping.) -/
theorem c8_amended_sequence_inference (name : String) (data : List (String × Value))
    (dc : DC) (k : String) (xs : List Value)
    (hok : fromdict name data = Except.ok dc)
    (hfind : data.find? (fun p => p.1 == k) = some (k, .listV xs)) :
    (xs = [] → lookupFld dc.flds k = some (.listT [.anyT])) ∧
    (∀ x rest, xs = x :: rest → isScalarV x = true →
      (∀ y ∈ rest, isScalarV y = true ∧ typeof y = typeof x) →
      lookupFld dc.flds k = some (.listT [typeof x])) ∧
    (∀ x rest, xs = x :: rest → (∀ y ∈ xs, isScalarV y = true) →
      (∃ y ∈ rest, typeof y ≠ typeof x) →
      lookupFld dc.flds k = some (.tupleT (xs.map typeof))) := by
  have hbase : lookupFld dc.flds k = some (inferListTy xs) := by
    unfold fromdict at hok
    cases hfs : fromdictFields data with
    | error e => simp only [hfs] at hok; exact absurd hok (by simp)
    | ok fs =>
      simp only [hfs] at hok
      unfold create_dc at hok
      cases hcn : checkFieldNames [] fs with
      | some e => simp only [hcn] at hok; exact absurd hok (by simp)
      | none =>
        simp only [hcn, Except.ok.injEq] at hok
        subst hok
        show lookupFld fs k = some (inferListTy xs)
        exact lookupFld_fromdictFields_find k (inferListTy xs) data fs (.listV xs)
          hfs hfind rfl
  refine ⟨?_, ?_, ?_⟩
  · intro hxs
    subst hxs
    exact hbase
  · intro x rest hxs hx hall
    subst hxs
    have hded : dedupFirst (typeof x :: rest.map typeof) = [typeof x] := by
      refine dedupFirst_const (typeof x) (typeof_beq_refl x) _ ?_ (by simp)
      intro u hu
      simp only [List.mem_cons, List.mem_map] at hu
      rcases hu with h | ⟨y, hy, hyt⟩
      · exact h
      · rw [← hyt]
        exact (hall y hy).2
    rw [hbase]
    simp [inferListTy, List.map_cons, hded]
  · intro x rest hxs hsc hmix
    subst hxs
    obtain ⟨y0, hy0, hy0t⟩ := hmix
    have hlen : ((dedupFirst (typeof x :: rest.map typeof)).length == 1) = false := by
      by_contra hcontra
      rw [Bool.not_eq_false] at hcontra
      have hlen1 : (dedupFirst (typeof x :: rest.map typeof)).length = 1 := by
        simpa using hcontra
      obtain ⟨w, hw⟩ := List.length_eq_one.1 hlen1
      have hx' : ∃ u ∈ dedupFirst (typeof x :: rest.map typeof),
          PyType.beq u (typeof x) = true := by
        rw [dedupFirst_eq_foldl]
        exact exists_beq_mem_dedupFold _ [] (typeof x) (by simp) (typeof_beq_refl x)
      have hy' : ∃ u ∈ dedupFirst (typeof x :: rest.map typeof),
          PyType.beq u (typeof y0) = true := by
        rw [dedupFirst_eq_foldl]
        refine exists_beq_mem_dedupFold _ [] (typeof y0) ?_ (typeof_beq_refl y0)
        exact List.mem_cons_of_mem _ (List.mem_map_of_mem _ hy0)
      obtain ⟨u1, hu1, hb1⟩ := hx'
      obtain ⟨u2, hu2, hb2⟩ := hy'
      rw [hw] at hu1 hu2
      simp only [List.mem_singleton] at hu1 hu2
      have hb1w : PyType.beq w (typeof x) = true := hu1 ▸ hb1
      have hb2w : PyType.beq w (typeof y0) = true := hu2 ▸ hb2
      have hwmem : w ∈ typeof x :: rest.map typeof := by
        have hmm := mem_of_mem_dedupFold (typeof x :: rest.map typeof) [] w
          (by rw [← dedupFirst_eq_foldl, hw]; simp)
        rcases hmm with h | h
        · simp at h
        · exact h
      have hwmem' : w ∈ (x :: rest).map typeof := by simpa using hwmem
      obtain ⟨z, hz, hzt⟩ := List.mem_map.1 hwmem'
      have hzsc : isScalarV z = true := hsc z hz
      rw [← hzt] at hb1w hb2w
      have e1 := typeof_beq_sound z x hzsc (hsc x (by simp)) hb1w
      have e2 := typeof_beq_sound z y0 hzsc (hsc y0 (by simp [hy0])) hb2w
      exact hy0t (e2 ▸ e1 ▸ rfl)
    rw [hbase]
    simp [inferListTy, List.map_cons, hlen]

/-- The C8 witness sample: an empty, a homogeneous and a mixed sequence. -/
def c8sample : List (String × Value) :=
  [("e", .listV []), ("h", .listV [.intV 1, .intV 2]),
   ("m", .listV [.intV 1, .strV "s"])]

/-- The schema inferred from `c8sample`. -/
def c8dc : DC :=
  .mk "Root" [("e", .listT [.anyT], none), ("h", .listT [.intT], none),
    ("m", .tupleT [.intT, .strT], none)]

/-- C8 witness: inference succeeds on the sample (all keys are valid
identifiers) and assigns `[] → List[Any]`, `[1, 2] → List[int]`,
`[1, "s"] → Tuple[int, str]`. -/
theorem c8_witness :
    fromdict "Root" c8sample = Except.ok c8dc ∧
    lookupFld c8dc.flds "e" = some (.listT [.anyT]) ∧
    lookupFld c8dc.flds "h" = some (.listT [.intT]) ∧
    lookupFld c8dc.flds "m" = some (.tupleT [.intT, .strT]) := by
  refine ⟨rfl, ?_, ?_, ?_⟩
  · exact (c8_amended_sequence_inference "Root" c8sample c8dc "e" [] rfl rfl).1 rfl
  · exact (c8_amended_sequence_inference "Root" c8sample c8dc "h"
      [.intV 1, .intV 2] rfl rfl).2.1
      (.intV 1) [.intV 2] rfl rfl
      (by intro y hy; simp at hy; subst hy; exact ⟨rfl, rfl⟩)
  · exact (c8_amended_sequence_inference "Root" c8sample c8dc "m"
      [.intV 1, .strV "s"] rfl rfl).2.2
      (.intV 1) [.strV "s"] rfl
      (by intro y hy; simp at hy; rcases hy with h | h <;> (subst h; rfl))
      ⟨.strV "s", by simp, by intro h; exact PyType.noConfusion h⟩

/-! ## C7 -/

mutual
/-- The raw-value class of the round-trip claim: scalars (number, boolean,
string), nested string-keyed objects with unique keys, and homogeneous
sequences of one scalar runtime kind. -/
def goodVal : Value → Bool
  | .intV _ => true
  | .floatV _ => true
  | .boolV _ => true
  | .strV _ => true
  | .listV [] => true
  | .listV (x :: xs) => isScalarV x && xs.all isScalarV &&
      xs.all (fun y => PyType.beq (typeof y) (typeof x))
  | .dictV kvs => goodData kvs
  | _ => false

/-- A raw mapping of the round-trip claim: every key a valid identifier
and not a keyword (so `make_dataclass` accepts it as a field name), unique
keys, good values. -/
def goodData : List (String × Value) → Bool
  | [] => true
  | (k, v) :: rest => isidentifier k && !(iskeyword k) &&
      !(rest.any (fun p => p.1 == k)) && goodVal v && goodData rest
end

/-- The inferred field type for one sample pair of a supported kind. -/
def f1ty (k : String) : Value → PyType
  | .dictV kvs => .dcT (.mk k (inferFields kvs))
  | .listV xs => inferListTy xs
  | v => typeof v

/-- For a supported value the per-pair inference contributes exactly one
field, named after the key, typed by `f1ty`. -/
theorem inferField1_good (k : String) (v : Value) (h : goodVal v = true) :
    inferField1 k v = [(k, f1ty k v, none)] := by
  cases v <;> simp_all [goodVal, inferField1, f1ty, typeof]

/-- Every value of a good mapping is good. -/
theorem goodData_mem_goodVal :
    ∀ (d : List (String × Value)), goodData d = true → ∀ p ∈ d, goodVal p.2 = true := by
  intro d
  induction d with
  | nil => intro _ p hp; simp at hp
  | cons q rest ih =>
    intro h p hp
    obtain ⟨k, v⟩ := q
    simp only [goodData, Bool.and_eq_true] at h
    rcases List.mem_cons.1 hp with heq | hmem
    · subst heq; exact h.1.2
    · exact ih h.2 p hmem

/-- Every key of a good mapping passes `make_dataclass`'s identifier and
keyword checks. -/
theorem goodData_key_valid :
    ∀ (d : List (String × Value)), goodData d = true →
      ∀ p ∈ d, (isidentifier p.1 && !(iskeyword p.1)) = true := by
  intro d
  induction d with
  | nil => intro _ p hp; simp at hp
  | cons q rest ih =>
    intro h p hp
    obtain ⟨k, v⟩ := q
    simp only [goodData, Bool.and_eq_true] at h
    obtain ⟨⟨⟨⟨hid, hkw⟩, _hnk⟩, _hgv⟩, hrest⟩ := h
    rcases List.mem_cons.1 hp with heq | hmem
    · subst heq
      rw [Bool.and_eq_true]
      exact ⟨hid, hkw⟩
    · exact ih hrest p hmem

/-- The keys of a good mapping are pairwise distinct. -/
theorem goodData_keys_nodup :
    ∀ (d : List (String × Value)), goodData d = true →
      (d.map (fun p => p.1)).Nodup := by
  intro d
  induction d with
  | nil => intro _; simp
  | cons q rest ih =>
    intro h
    obtain ⟨k, v⟩ := q
    simp only [goodData, Bool.and_eq_true] at h
    obtain ⟨⟨⟨⟨_hid, _hkw⟩, hnk⟩, _hgv⟩, hrest⟩ := h
    simp only [List.map_cons, List.nodup_cons]
    refine ⟨?_, ih hrest⟩
    intro hmem
    obtain ⟨p, hp, hpk⟩ := List.mem_map.1 hmem
    rw [Bool.not_eq_true'] at hnk
    have := List.any_eq_false.1 hnk p hp
    exact this (by simp [hpk])

/-- The inferred schema of a good mapping has exactly the mapping's keys as
field names, in order. -/
theorem inferFields_names :
    ∀ (d : List (String × Value)), goodData d = true →
      (inferFields d).map (fun f => f.1) = d.map (fun p => p.1) := by
  intro d
  induction d with
  | nil => intro _; rfl
  | cons q rest ih =>
    intro h
    obtain ⟨k, v⟩ := q
    simp only [goodData, Bool.and_eq_true] at h
    rw [show inferFields ((k, v) :: rest) =
      inferField1 k v ++ inferFields rest from rfl]
    rw [inferField1_good k v h.1.2]
    simp [ih h.2]

/-- Looking a key of a good mapping up in its inferred schema yields that
key's inferred type. -/
theorem lookupFld_inferFields_good :
    ∀ (d : List (String × Value)), goodData d = true →
      ∀ p ∈ d, lookupFld (inferFields d) p.1 = some (f1ty p.1 p.2) := by
  intro d
  induction d with
  | nil => intro _ p hp; simp at hp
  | cons q rest ih =>
    intro h p hp
    obtain ⟨k, v⟩ := q
    simp only [goodData, Bool.and_eq_true] at h
    rw [show inferFields ((k, v) :: rest) =
      inferField1 k v ++ inferFields rest from rfl]
    rw [inferField1_good k v h.1.2]
    rcases List.mem_cons.1 hp with heq | hmem
    · subst heq
      unfold lookupFld
      simp [List.find?_cons]
    · have hk : (p.1 == k) = false := by
        have hnk := h.1.1.2
        rw [Bool.not_eq_true'] at hnk
        have := List.any_eq_false.1 hnk p hmem
        cases hpk : (p.1 == k) with
        | false => rfl
        | true => exact absurd hpk this
      unfold lookupFld
      rw [List.cons_append, List.nil_append,
        List.find?_cons_of_neg _ (by simp; intro heq; subst heq; simp at hk)]
      exact ih h.2 p hmem

/-- `make_dataclass`'s validation accepts a list of fields whose names are
all valid non-keyword identifiers, none already seen, with no duplicates. -/
theorem checkFieldNames_none :
    ∀ (fs : List DCField) (seen : List String),
      (∀ f ∈ fs, (isidentifier f.1 && !(iskeyword f.1)) = true) →
      (∀ f ∈ fs, seen.contains f.1 = false) →
      (fs.map (fun f => f.1)).Nodup →
      checkFieldNames seen fs = none := by
  intro fs
  induction fs with
  | nil => intro seen _ _ _; rfl
  | cons f rest ih =>
    intro seen hvalid hseen hnd
    have hv := hvalid f (by simp)
    rw [Bool.and_eq_true] at hv
    have hkw : iskeyword f.1 = false := by
      have h2 := hv.2
      rwa [Bool.not_eq_true'] at h2
    have hs := hseen f (by simp)
    have hsm : f.1 ∉ seen := by simpa using hs
    rw [show checkFieldNames seen (f :: rest) =
      checkFieldNames (f.1 :: seen) rest from by
        simp [checkFieldNames, hv.1, hkw, hsm]]
    simp only [List.map_cons, List.nodup_cons] at hnd
    refine ih (f.1 :: seen) ?_ ?_ hnd.2
    · intro g hg
      exact hvalid g (by simp [hg])
    · intro g hg
      have hgs := hseen g (by simp [hg])
      cases hbe : (g.1 == f.1) with
      | true =>
        exfalso
        have hgf : g.1 = f.1 := by simpa using hbe
        exact hnd.1 (hgf ▸ List.mem_map_of_mem _ hg)
      | false =>
        have hne : ¬g.1 = f.1 := by simpa using hbe
        have hns : g.1 ∉ seen := by simpa using hgs
        simp [List.contains_cons, hne, hns]

/-- `create_dc` succeeds on valid, duplicate-free field names. -/
theorem create_dc_ok (dcname : String) (fs : List DCField)
    (hv : ∀ f ∈ fs, (isidentifier f.1 && !(iskeyword f.1)) = true)
    (hnd : (fs.map (fun f => f.1)).Nodup) :
    create_dc dcname fs = Except.ok (DC.mk dcname fs) := by
  unfold create_dc
  rw [checkFieldNames_none fs [] hv (fun f _ => rfl) hnd]

/-- `create_dc` accepts the fields inferred from a good mapping. -/
theorem create_dc_inferFields_ok (dcname : String) (d : List (String × Value))
    (h : goodData d = true) :
    create_dc dcname (inferFields d) = Except.ok (DC.mk dcname (inferFields d)) := by
  refine create_dc_ok dcname (inferFields d) ?_ ?_
  · intro f hf
    have hmem : f.1 ∈ d.map (fun p => p.1) := by
      rw [← inferFields_names d h]
      exact List.mem_map_of_mem _ hf
    obtain ⟨p, hp, hpk⟩ := List.mem_map.1 hmem
    rw [← hpk]
    exact goodData_key_valid d h p hp
  · rw [inferFields_names d h]
    exact goodData_keys_nodup d h

/-- On a good mapping the field-collection loop of `fromdict` succeeds and
collects exactly the proof-side inferred fields (every nested
`make_dataclass` call validates successfully). -/
theorem fromdictFields_ok_of_good :
    ∀ (n : Nat) (d : List (String × Value)), sizeOf d ≤ n → goodData d = true →
      fromdictFields d = Except.ok (inferFields d) := by
  intro n
  induction n with
  | zero =>
    intro d hsize _
    cases d with
    | nil => rfl
    | cons p rest =>
      exfalso
      simp only [List.cons.sizeOf_spec] at hsize
      omega
  | succ n ih =>
    intro d hsize hg
    cases d with
    | nil => rfl
    | cons p rest =>
      obtain ⟨k, v⟩ := p
      simp only [goodData, Bool.and_eq_true] at hg
      obtain ⟨⟨⟨⟨_hid, _hkw⟩, _hnk⟩, hgv⟩, hrest⟩ := hg
      have hsr : sizeOf rest ≤ n := by
        simp only [List.cons.sizeOf_spec] at hsize
        omega
      have hf1 : fromdictField1 k v = Except.ok (inferField1 k v) := by
        cases v with
        | dictV kvs =>
          have hgd : goodData kvs = true := by simpa [goodVal] using hgv
          have hskvs : sizeOf kvs ≤ n := by
            simp only [List.cons.sizeOf_spec, Prod.mk.sizeOf_spec,
              Value.dictV.sizeOf_spec] at hsize
            omega
          simp only [fromdictField1, inferField1, ih kvs hskvs hgd,
            create_dc_inferFields_ok k kvs hgd]
        | null => simp [goodVal] at hgv
        | mapV kvs => simp [goodVal] at hgv
        | instV nm fs => simp [goodVal] at hgv
        | intV m => rfl
        | floatV m => rfl
        | boolV b => rfl
        | strV s => rfl
        | listV xs => rfl
      simp only [fromdictFields, inferFields, hf1, ih rest hsr hrest]

/-- `fromdict` on a good mapping returns the inferred schema. -/
theorem fromdict_ok_of_good (name : String) (d : List (String × Value))
    (h : goodData d = true) :
    fromdict name d = Except.ok (DC.mk name (inferFields d)) := by
  unfold fromdict
  rw [fromdictFields_ok_of_good (sizeOf d) d (Nat.le_refl _) h]
  show create_dc name (inferFields d) = Except.ok (DC.mk name (inferFields d))
  exact create_dc_inferFields_ok name d h

/-- Inference never produces a dataclass type for a sequence. -/
theorem isDcT_inferListTy (xs : List Value) : isDcT (inferListTy xs) = false := by
  cases xs with
  | nil => rfl
  | cons x rest =>
    simp only [inferListTy]
    split <;> rfl

/-- A `parse_dc` loop step on a declared key with a non-dataclass type does
nothing but advance. -/
theorem parse_dc_go_step_nondc (name : String) (flds : List DCField) (strict : Bool)
    (k0 : String) (v : Value) (rest cpy : List (String × Value)) (ty : PyType)
    (hl : lookupFld flds k0 = some ty) (hnd : isDcT ty = false) :
    parse_dc_go name flds strict ((k0, v) :: rest) cpy =
      parse_dc_go name flds strict rest cpy := by
  rw [parse_dc_go, hl]
  cases ty <;> simp_all [isDcT]

/-- A `parse_dc` loop step on a declared key with a dataclass type parses
the value recursively and stores the instance. -/
theorem parse_dc_go_step_dc (name : String) (flds : List DCField) (strict : Bool)
    (k0 : String) (v : Value) (rest cpy : List (String × Value)) (child : DC)
    (hl : lookupFld flds k0 = some (.dcT child)) :
    parse_dc_go name flds strict ((k0, v) :: rest) cpy =
      match parse_dc_nested child v with
      | .ok i => parse_dc_go name flds strict rest (assocSet cpy k0 i)
      | .error e => .error e := by
  rw [parse_dc_go, hl]

/-- A key among the entry names is found. -/
theorem lookupFld_isSome_of_mem (flds : List DCField) (k : String)
    (h : k ∈ flds.map (fun f => f.1)) : (lookupFld flds k).isSome = true := by
  unfold lookupFld
  induction flds with
  | nil => simp at h
  | cons g rest ih =>
    cases hgk : (g.1 == k) with
    | true =>
      rw [List.find?_cons_of_pos _ (by simp [hgk])]
      rfl
    | false =>
      rw [List.find?_cons_of_neg _ (by simp [hgk])]
      refine ih ?_
      simp only [List.map_cons, List.mem_cons] at h
      rcases h with h | h
      · exact absurd hgk (by rw [h]; simp)
      · exact h

/-- A key among the entry names has a binding. -/
theorem assocGet_isSome_of_mem (l : List (String × Value)) (k : String)
    (h : k ∈ l.map (fun p => p.1)) : (assocGet l k).isSome = true := by
  unfold assocGet
  induction l with
  | nil => simp at h
  | cons q rest ih =>
    cases hqk : (q.1 == k) with
    | true =>
      rw [List.find?_cons_of_pos _ (by simp [hqk])]
      rfl
    | false =>
      rw [List.find?_cons_of_neg _ (by simp [hqk])]
      refine ih ?_
      simp only [List.map_cons, List.mem_cons] at h
      rcases h with h | h
      · exact absurd hqk (by rw [h]; simp)
      · exact h

/-- Writing an already-present key preserves the key list. -/
theorem assocSet_names (l : List (String × Value)) (k : String) (v : Value)
    (h : k ∈ l.map (fun p => p.1)) :
    (assocSet l k v).map (fun p => p.1) = l.map (fun p => p.1) := by
  have hany : (l.any (fun p => p.1 == k)) = true := by
    obtain ⟨p, hp, hpk⟩ := List.mem_map.1 h
    exact List.any_eq_true.2 ⟨p, hp, by simp [hpk]⟩
  unfold assocSet
  rw [hany]
  simp only [if_true, List.map_map]
  apply List.map_congr_left
  intro p _
  by_cases hpk : p.1 = k
  · simp [hpk]
  · simp [hpk]

/-- `Cls(**kwargs)` succeeds when every keyword is declared and every
declared field is supplied. -/
theorem dcCallKw_ok_of_keys (name : String) (flds : List DCField)
    (kwargs : List (String × Value))
    (h1 : ∀ kv ∈ kwargs, (lookupFld flds kv.1).isSome = true)
    (h2 : ∀ f ∈ flds, (assocGet kwargs f.1).isSome = true) :
    ∃ v, dcCallKw name flds kwargs = .ok v := by
  unfold dcCallKw
  have hu : kwargs.find? (fun kv => (lookupFld flds kv.1).isNone) = none := by
    rw [List.find?_eq_none]
    intro kv hkv
    have := h1 kv hkv
    simp [Option.isNone]
    cases hx : lookupFld flds kv.1 with
    | none => rw [hx] at this; simp at this
    | some t => simp
  rw [hu]
  have hm : (flds.filter (fun f => f.2.2.isNone && (assocGet kwargs f.1).isNone)) = [] := by
    rw [List.filter_eq_nil_iff]
    intro f hf
    have := h2 f hf
    cases hx : assocGet kwargs f.1 with
    | none => rw [hx] at this; simp at this
    | some v => simp
  rw [hm]
  exact ⟨_, rfl⟩

/-- The `parse_dc` loop over an inferred-schema-conforming pending list
succeeds: every pending key is declared, nested mappings recurse through
their own inferred schemas, and the final construction is supplied every
declared field. -/
theorem parse_dc_go_roundtrip :
    ∀ (n : Nat) (name : String) (flds : List DCField) (strict : Bool)
      (pending cpy : List (String × Value)) (dataKeys : List String),
      sizeOf pending ≤ n →
      (∀ p ∈ pending, goodVal p.2 = true ∧
        lookupFld flds p.1 = some (f1ty p.1 p.2) ∧ p.1 ∈ dataKeys) →
      flds.map (fun f => f.1) = dataKeys →
      cpy.map (fun p => p.1) = dataKeys →
      ∃ v, parse_dc_go name flds strict pending cpy = .ok v := by
  intro n
  induction n with
  | zero =>
    intro name flds strict pending cpy dataKeys hsize
    exfalso
    cases pending <;> simp at hsize
  | succ n ih =>
    intro name flds strict pending cpy dataKeys hsize hpend hflds hcpy
    cases pending with
    | nil =>
      rw [parse_dc_go]
      refine dcCallKw_ok_of_keys name flds cpy ?_ ?_
      · intro kv hkv
        refine lookupFld_isSome_of_mem flds kv.1 ?_
        rw [hflds, ← hcpy]
        exact List.mem_map_of_mem _ hkv
      · intro f hf
        refine assocGet_isSome_of_mem cpy f.1 ?_
        rw [hcpy, ← hflds]
        exact List.mem_map_of_mem _ hf
    | cons hd rest =>
      obtain ⟨k0, v⟩ := hd
      obtain ⟨hgood, hlook, hkey⟩ := hpend (k0, v) (by simp)
      have hrest : sizeOf rest ≤ n := by
        simp only [List.cons.sizeOf_spec] at hsize
        omega
      have hpend' : ∀ p ∈ rest, goodVal p.2 = true ∧
          lookupFld flds p.1 = some (f1ty p.1 p.2) ∧ p.1 ∈ dataKeys := by
        intro p hp
        exact hpend p (by simp [hp])
      cases v with
      | dictV kvs =>
        have hstep := parse_dc_go_step_dc name flds strict k0 (.dictV kvs) rest cpy
          (.mk k0 (inferFields kvs)) (by simpa [f1ty] using hlook)
        rw [hstep]
        have hgd : goodData kvs = true := by simpa [goodVal] using hgood
        have hkvs : sizeOf kvs ≤ n := by
          simp only [List.cons.sizeOf_spec, Prod.mk.sizeOf_spec,
            Value.dictV.sizeOf_spec] at hsize
          omega
        obtain ⟨i, hi⟩ := ih k0 (inferFields kvs) true kvs kvs
          (kvs.map (fun p => p.1)) hkvs
          (fun p hp => ⟨goodData_mem_goodVal kvs hgd p hp,
            lookupFld_inferFields_good kvs hgd p hp,
            List.mem_map_of_mem _ hp⟩)
          (inferFields_names kvs hgd) rfl
        rw [show parse_dc_nested (.mk k0 (inferFields kvs)) (.dictV kvs) =
          parse_dc_go k0 (inferFields kvs) true kvs kvs from rfl]
        rw [hi]
        simp only
        refine ih name flds strict rest (assocSet cpy k0 i) dataKeys hrest hpend' hflds ?_
        rw [assocSet_names cpy k0 i (by rw [hcpy]; exact hkey)]
        exact hcpy
      | intV m =>
        rw [parse_dc_go_step_nondc name flds strict k0 (.intV m) rest cpy _ hlook rfl]
        exact ih name flds strict rest cpy dataKeys hrest hpend' hflds hcpy
      | floatV m =>
        rw [parse_dc_go_step_nondc name flds strict k0 (.floatV m) rest cpy _ hlook rfl]
        exact ih name flds strict rest cpy dataKeys hrest hpend' hflds hcpy
      | boolV bb =>
        rw [parse_dc_go_step_nondc name flds strict k0 (.boolV bb) rest cpy _ hlook rfl]
        exact ih name flds strict rest cpy dataKeys hrest hpend' hflds hcpy
      | strV s =>
        rw [parse_dc_go_step_nondc name flds strict k0 (.strV s) rest cpy _ hlook rfl]
        exact ih name flds strict rest cpy dataKeys hrest hpend' hflds hcpy
      | listV xs =>
        rw [parse_dc_go_step_nondc name flds strict k0 (.listV xs) rest cpy _ hlook
          (by simpa [f1ty] using isDcT_inferListTy xs)]
        exact ih name flds strict rest cpy dataKeys hrest hpend' hflds hcpy
      | null => simp [goodVal] at hgood
      | mapV kvs => simp [goodVal] at hgood
      | instV nm fs => simp [goodVal] at hgood

/-- C7 counterexample: `{"foo-bar": 1}` is a raw object built only from
scalars, yet the round-trip does not succeed: `fromdict` raises `TypeError`
from `make_dataclass`'s field-name validation (a hyphen is not allowed in
an identifier), so there is no inferred schema to decode against. -/
theorem c7_counterexample :
    isidentifier "foo-bar" = false ∧
    fromdict "Root" [("foo-bar", Value.intV 1)]
        = .error (.typeError (.fieldIdent "foo-bar")) ∧
    renderErr (.typeError (.fieldIdent "foo-bar"))
        = "Field names must be valid identifiers: \x27foo-bar\x27" :=
  ⟨rfl, rfl, rfl⟩

/-- C7 (amended): for any raw object built only from scalars, nested
objects (with unique keys) and homogeneous sequences of one scalar runtime
kind, whose keys at every level are valid identifiers and not Python
keywords, inference succeeds and decoding the object against the inferred
schema succeeds — under the Strict policy and any other. -/
theorem c7_amended_infer_decode_roundtrip (data : List (String × Value))
    (h : goodData data = true) (name : String) (strict : Bool) :
    ∃ dc v, fromdict name data = Except.ok dc ∧
      parse_dc dc (.dictV data) strict = .ok v := by
  obtain ⟨v, hv⟩ := parse_dc_go_roundtrip (sizeOf data) name (inferFields data)
    strict data data (data.map (fun p => p.1)) (Nat.le_refl _)
    (fun p hp => ⟨goodData_mem_goodVal data h p hp,
      lookupFld_inferFields_good data h p hp,
      List.mem_map_of_mem _ hp⟩)
    (inferFields_names data h) rfl
  exact ⟨.mk name (inferFields data), v, fromdict_ok_of_good name data h, hv⟩

/-- The C7 witness sample: a string, a number, a nested object and a
homogeneous number list, all keys valid identifiers. -/
def c7sample : List (String × Value) :=
  [("a", .strV "x"), ("n", .intV 1),
   ("b", .dictV [("c", .intV 2)]), ("l", .listV [.intV 1, .intV 2])]

/-- C7 witness: the sample is good, the round-trip succeeds under Strict,
and the whole composition also evaluates concretely. -/
theorem c7_witness :
    goodData c7sample = true ∧
    (∃ dc v, fromdict "Root" c7sample = Except.ok dc ∧
      parse_dc dc (.dictV c7sample) true = .ok v) ∧
    (match fromdict "Root" c7sample with
      | .ok dc => parse_dc dc (.dictV c7sample) true
      | .error e => .error e)
      = .ok (.instV "Root"
          [("a", .strV "x"), ("n", .intV 1),
           ("b", .instV "b" [("c", .intV 2)]), ("l", .listV [.intV 1, .intV 2])]) := by
  refine ⟨rfl, ?_, rfl⟩
  exact c7_amended_infer_decode_roundtrip c7sample rfl "Root" true

end Resguard
